import Mathlib

/-!
Verification development for the isdoc codec and validation engine.

The Go sources are shallowly embedded: string-backed scalar types become
Lean functions over String, struct types become Lean structures, slices
become lists, nil-able pointers become Option, and functions returning
(value, error) pairs become Except-valued functions.  Machine float64
arithmetic (used only to compare decimal quantities) is modelled by exact
rationals; diagnostic message strings are presentation-only and are not
modelled unless a claim depends on them.
-/

/-! ## Scalar type layer (types/decimal.go, types/date.go, types/bool.go, types/uuid.go) -/

/-- Decimal represents a decimal number as a string to preserve precision
(Go: type Decimal string). -/
abbrev Decimal := String

def natOfDigits (l : List Char) : Nat :=
  l.foldl (fun a c => 10 * a + (c.toNat - 48)) 0

/-- Body of the decimal regular expression, after the optional minus sign.
The Go pattern is the anchored alternation (d+ dot? d*) | (d* dot? d+):
a run of digits, at most one decimal point, and at least one digit. -/
def decimalBody (l : List Char) : Bool :=
  let a := l.takeWhile Char.isDigit
  let r := l.dropWhile Char.isDigit
  match r with
  | [] => !a.isEmpty
  | '.' :: t => t.all Char.isDigit && (!a.isEmpty || !t.isEmpty)
  | _ => false

/-- Matcher for the Go regexp decimalPattern
(https pattern: -?(d+ dot? d* | d* dot? d+), anchored at both ends). -/
def decimalPattern (s : String) : Bool :=
  match s.data with
  | '-' :: rest => decimalBody rest
  | l => decimalBody l

/-- NewDecimal creates a Decimal from a string, validating the format
(Go: NewDecimal). -/
def NewDecimal (s : String) : Except String Decimal :=
  if decimalPattern s then .ok s
  else .error ("invalid decimal format: " ++ s)

/-- IsZero for Decimal: true when the stored text is empty (the unset
sentinel), not when the numeric value is zero (Go: Decimal.IsZero). -/
def decimalIsZero (d : Decimal) : Bool :=
  d == ""

/-- String for Decimal returns the stored text verbatim (Go: Decimal.String). -/
def decimalString (d : Decimal) : String :=
  d

/-- Frac is an exact rational number represented as an integer numerator
over a positive power-of-ten denominator.  It models the real-number
semantics of the float64 values the Go code computes with; all operations
used here keep the denominator positive. -/
structure Frac where
  num : Int
  den : Nat
deriving DecidableEq, Repr

def Frac.zero : Frac := ⟨0, 1⟩

def Frac.add (f g : Frac) : Frac :=
  ⟨f.num * g.den + g.num * f.den, f.den * g.den⟩

def Frac.sub (f g : Frac) : Frac :=
  ⟨f.num * g.den - g.num * f.den, f.den * g.den⟩

def Frac.neg (f : Frac) : Frac :=
  ⟨-f.num, f.den⟩

/-- Value equality of fractions (cross multiplication; denominators are
positive wherever this is used). -/
def Frac.eqv (f g : Frac) : Bool :=
  f.num * (g.den : Int) == g.num * (f.den : Int)

/-- Strict value order on fractions (cross multiplication; denominators are
positive wherever this is used). -/
def Frac.ltb (f g : Frac) : Bool :=
  decide (f.num * (g.den : Int) < g.num * (f.den : Int))

def Frac.absVal (f : Frac) : Frac :=
  ⟨f.num.natAbs, f.den⟩

/-- Numeric value of the positive part of a decimal literal:
integer digits, then an optional fraction after one decimal point. -/
def decimalValAux (l : List Char) : Frac :=
  let ip := l.takeWhile Char.isDigit
  let r := l.dropWhile Char.isDigit
  let fp := match r with
    | '.' :: t => t
    | _ => []
  ⟨natOfDigits ip * 10 ^ fp.length + natOfDigits fp, 10 ^ fp.length⟩

/-- Float64 for Decimal: the numeric value of the stored text, or 0 when the
text is empty or cannot be parsed (Go: Decimal.Float64).  The Go code goes
through binary float64; the model uses the exact rational value. -/
def decimalFloat64 (d : Decimal) : Frac :=
  if decimalPattern d then
    match d.data with
    | '-' :: rest => (decimalValAux rest).neg
    | l => decimalValAux l
  else Frac.zero

/-- Equal for Decimal compares the parsed numeric values, so different
textual forms of one number are equal (Go: Decimal.Equal). -/
def decimalEqual (d1 d2 : Decimal) : Bool :=
  (decimalFloat64 d1).eqv (decimalFloat64 d2)

/-! ### Date (types/date.go) -/

/-- Date models the year-month-day content of the Go Date value: NewDate
normalizes the wrapped time.Time to midnight UTC, so only the calendar
date is observable. -/
structure Date where
  year : Nat
  month : Nat
  day : Nat
deriving DecidableEq, Repr

/-- Zero value of Date: the Go zero time.Time instant is January 1, year 1. -/
def Date.zero : Date := ⟨1, 1, 1⟩

/-- IsZero for Date (Go: Date.IsZero via time.Time.IsZero). -/
def dateIsZero (d : Date) : Bool :=
  d == Date.zero

def isLeapYear (y : Nat) : Bool :=
  y % 4 == 0 && (y % 100 != 0 || y % 400 == 0)

def daysInMonth (y m : Nat) : Nat :=
  if m = 2 then (if isLeapYear y then 29 else 28)
  else if m = 4 ∨ m = 6 ∨ m = 9 ∨ m = 11 then 30
  else 31

/-- ParseDate parses a date string in YYYY-MM-DD format; the empty string is
the valid unset sentinel (Go: ParseDate, layout 2006-01-02).  The Go
time.Parse call demands exactly four year digits, two month digits and two
day digits, validates the month range and the day against the length of the
month, and accepts nothing after the day. -/
def ParseDate (s : String) : Except String Date :=
  if s = "" then .ok Date.zero
  else
    match s.data with
    | [y1, y2, y3, y4, '-', m1, m2, '-', d1, d2] =>
      if y1.isDigit && y2.isDigit && y3.isDigit && y4.isDigit &&
         m1.isDigit && m2.isDigit && d1.isDigit && d2.isDigit then
        let y := natOfDigits [y1, y2, y3, y4]
        let m := natOfDigits [m1, m2]
        let d := natOfDigits [d1, d2]
        if 1 ≤ m ∧ m ≤ 12 then
          if 1 ≤ d ∧ d ≤ daysInMonth y m then .ok ⟨y, m, d⟩
          else .error ("invalid date format " ++ s ++ ": expected YYYY-MM-DD")
        else .error ("invalid date format " ++ s ++ ": expected YYYY-MM-DD")
      else .error ("invalid date format " ++ s ++ ": expected YYYY-MM-DD")
    | _ => .error ("invalid date format " ++ s ++ ": expected YYYY-MM-DD")

/-! ### Bool (types/bool.go) -/

/-- ParseBool accepts only the literals true, false, or empty (meaning
unset/false); anything else is an error (Go: ParseBool). -/
def ParseBool (s : String) : Except String Bool :=
  match s with
  | "true" => .ok true
  | "false" => .ok false
  | "" => .ok false
  | _ => .error ("invalid boolean " ++ s ++ ": must be true or false")

/-! ### UUID (types/uuid.go) -/

/-- UUID is a string with the canonical 8-4-4-4-12 layout (Go: type UUID string). -/
abbrev UUID := String

def isHexDigitChar (c : Char) : Bool :=
  c.isDigit || ('a' ≤ c && c ≤ 'f') || ('A' ≤ c && c ≤ 'F')

/-- Matcher for the Go uuidPattern regexp: 36 characters, dashes at
positions 8, 13, 18 and 23, hexadecimal digits elsewhere. -/
def uuidPattern (s : String) : Bool :=
  s.data.length = 36 &&
    s.data.enum.all fun p =>
      if p.1 = 8 ∨ p.1 = 13 ∨ p.1 = 18 ∨ p.1 = 23 then p.2 = '-'
      else isHexDigitChar p.2

/-- Model of strings.TrimSpace: drop whitespace from both ends. -/
def goTrimSpace (s : String) : String :=
  ⟨(((s.data.dropWhile Char.isWhitespace).reverse).dropWhile Char.isWhitespace).reverse⟩

/-- NewUUID trims the input, accepts the empty string as the unset sentinel,
and otherwise validates the canonical layout (Go: NewUUID). -/
def NewUUID (s : String) : Except String UUID :=
  let t := goTrimSpace s
  if t = "" then .ok ""
  else if uuidPattern t then .ok t
  else .error ("invalid UUID format: " ++ t)

/-- Success test on an Except value, as the nil-check on the Go error. -/
def exceptOk {ε α : Type} : Except ε α → Bool
  | .ok _ => true
  | .error _ => false

instance {ε α : Type} [DecidableEq ε] [DecidableEq α] : DecidableEq (Except ε α) := fun a b =>
  match a, b with
  | .ok x, .ok y =>
      if h : x = y then .isTrue (by rw [h]) else .isFalse (fun hh => h (Except.ok.inj hh))
  | .error x, .error y =>
      if h : x = y then .isTrue (by rw [h]) else .isFalse (fun hh => h (Except.error.inj hh))
  | .ok x, .error y => .isFalse (fun hh => Except.noConfusion hh)
  | .error x, .ok y => .isFalse (fun hh => Except.noConfusion hh)

/-! ## Document model (schema package) -/

/-- Note is a text note with an optional language attribute (schema.Note). -/
structure Note where
  Value : String
  LanguageID : String
deriving DecidableEq, Repr

/-- Extensions holds arbitrary user-defined inner XML (schema.Extensions). -/
structure Extensions where
  Raw : String
deriving DecidableEq, Repr

/-- EgovClassifier is a document classifier (schema.EgovClassifier). -/
structure EgovClassifier where
  Value : String
deriving DecidableEq, Repr

/-- EgovClassifiers is a collection of document classifiers. -/
structure EgovClassifiers where
  EgovClassifier : List EgovClassifier
deriving DecidableEq, Repr

/-- OrderReference is a referenced purchase order (schema.OrderReference); the
ID field is the id attribute used for reference linking. -/
structure OrderReference where
  ID : String
  SalesOrderID : String
  ExternalOrderID : String
  IssueDate : Date
  ExternalOrderIssueDate : Date
  UUID : UUID
  ISDS_ID : String
  FileReference : String
  ReferenceNumber : String
deriving DecidableEq, Repr

structure OrderReferences where
  OrderReference : List OrderReference
deriving DecidableEq, Repr

/-- OrderLineReference carries the ref attribute linking to OrderReference.id. -/
structure OrderLineReference where
  Ref : String
  LineID : String
deriving DecidableEq, Repr

structure DeliveryNoteReference where
  ID : String
  DeliveryNoteID : String
  IssueDate : Date
  UUID : UUID
deriving DecidableEq, Repr

structure DeliveryNoteReferences where
  DeliveryNoteReference : List DeliveryNoteReference
deriving DecidableEq, Repr

structure DeliveryNoteLineReference where
  Ref : String
  LineID : String
deriving DecidableEq, Repr

structure OriginalDocumentReference where
  ID : String
  OriginalDocumentID : String
  IssueDate : Date
  UUID : UUID
deriving DecidableEq, Repr

structure OriginalDocumentReferences where
  OriginalDocumentReference : List OriginalDocumentReference
deriving DecidableEq, Repr

structure OriginalDocumentLineReference where
  Ref : String
  LineID : String
deriving DecidableEq, Repr

structure ContractReference where
  ID : String
  ContractID : String
  UUID : UUID
  IssueDate : Date
  LastValidDate : Date
  LastValidDateUnbounded : Bool
  ISDS_ID : String
  FileReference : String
  ReferenceNumber : String
deriving DecidableEq, Repr

structure ContractReferences where
  ContractReference : List ContractReference
deriving DecidableEq, Repr

structure ContractLineReference where
  Ref : String
  ParagraphID : String
deriving DecidableEq, Repr

/-- Country of a postal address (schema.Country). -/
structure Country where
  IdentificationCode : String
  Name : String
deriving DecidableEq, Repr

structure PostalAddress where
  StreetName : String
  BuildingNumber : String
  CityName : String
  PostalZone : String
  Country : Country
deriving DecidableEq, Repr

structure PartyName where
  Name : String
deriving DecidableEq, Repr

structure PartyIdentification where
  UserID : String
  CatalogFirmIdentification : String
  ID : String
deriving DecidableEq, Repr

structure PartyTaxScheme where
  CompanyID : String
  TaxScheme : String
deriving DecidableEq, Repr

structure RegisterIdentification where
  Preformatted : String
  RegisterKeptAt : String
  RegisterFileRef : String
  RegisterDate : Date
deriving DecidableEq, Repr

structure Contact where
  Name : String
  Telephone : String
  ElectronicMail : String
deriving DecidableEq, Repr

/-- Party is a business party (schema.Party). -/
structure Party where
  PartyIdentification : PartyIdentification
  PartyName : PartyName
  PostalAddress : PostalAddress
  PartyTaxScheme : List PartyTaxScheme
  RegisterIdentification : Option RegisterIdentification
  Contact : Option Contact
deriving DecidableEq, Repr

structure AccountingSupplierParty where
  Party : Party
deriving DecidableEq, Repr

structure SellerSupplierParty where
  Party : Party
deriving DecidableEq, Repr

structure AccountingCustomerParty where
  Party : Party
deriving DecidableEq, Repr

structure BuyerCustomerParty where
  Party : Party
deriving DecidableEq, Repr

structure AnonymousCustomerParty where
  ID : String
  IDScheme : String
deriving DecidableEq, Repr

structure Delivery where
  Party : Party
deriving DecidableEq, Repr

/-- Quantity is a decimal amount carried as character data with an optional
unitCode attribute (schema.Quantity). -/
structure Quantity where
  Value : Decimal
  UnitCode : String
deriving DecidableEq, Repr

structure LocalReverseCharge where
  LocalReverseChargeCode : String
  LocalReverseChargeQuantity : Decimal
deriving DecidableEq, Repr

structure ClassifiedTaxCategory where
  Percent : Decimal
  VATCalculationMethod : Int
  VATApplicable : Bool
  LocalReverseCharge : Option LocalReverseCharge
deriving DecidableEq, Repr

structure ItemIdentification where
  ID : String
deriving DecidableEq, Repr

structure StoreBatch where
  Name : String
  Note : String
  ExpirationDate : Date
  Specification : String
  Quantity : Quantity
  BatchOrSerialNumber : String
  SealSeriesID : String
deriving DecidableEq, Repr

structure StoreBatches where
  StoreBatch : List StoreBatch
deriving DecidableEq, Repr

/-- Item details of an invoice line (schema.Item). -/
structure Item where
  Description : String
  CatalogueItemIdentification : Option ItemIdentification
  SellersItemIdentification : Option ItemIdentification
  SecondarySellersItemIdentification : Option ItemIdentification
  TertiarySellersItemIdentification : Option ItemIdentification
  BuyersItemIdentification : Option ItemIdentification
  StoreBatches : Option StoreBatches
deriving DecidableEq, Repr

/-- InvoiceLine is a single line item (schema.InvoiceLine). -/
structure InvoiceLine where
  ID : String
  OrderReference : Option OrderLineReference
  DeliveryNoteReference : Option DeliveryNoteLineReference
  OriginalDocumentReference : Option OriginalDocumentLineReference
  ContractReference : Option ContractLineReference
  EgovClassifier : String
  InvoicedQuantity : Quantity
  LineExtensionAmountCurr : Decimal
  LineExtensionAmount : Decimal
  LineExtensionAmountBeforeDiscount : Decimal
  LineExtensionAmountTaxInclusiveCurr : Decimal
  LineExtensionAmountTaxInclusive : Decimal
  LineExtensionAmountTaxInclusiveBeforeDiscount : Decimal
  LineExtensionTaxAmount : Decimal
  UnitPrice : Decimal
  UnitPriceTaxInclusive : Decimal
  ClassifiedTaxCategory : ClassifiedTaxCategory
  Note : String
  VATNote : String
  Item : Item
  Extensions : Option Extensions
deriving DecidableEq, Repr

structure InvoiceLines where
  InvoiceLine : List InvoiceLine
deriving DecidableEq, Repr

structure TaxCategory where
  Percent : Decimal
  TaxScheme : String
  VATApplicable : Bool
  LocalReverseChargeFlag : Bool
deriving DecidableEq, Repr

/-- TaxSubTotal is the tax breakdown for one rate (schema.TaxSubTotal). -/
structure TaxSubTotal where
  TaxableAmountCurr : Decimal
  TaxableAmount : Decimal
  TaxAmountCurr : Decimal
  TaxAmount : Decimal
  TaxInclusiveAmountCurr : Decimal
  TaxInclusiveAmount : Decimal
  AlreadyClaimedTaxableAmountCurr : Decimal
  AlreadyClaimedTaxableAmount : Decimal
  AlreadyClaimedTaxAmountCurr : Decimal
  AlreadyClaimedTaxAmount : Decimal
  AlreadyClaimedTaxInclusiveAmountCurr : Decimal
  AlreadyClaimedTaxInclusiveAmount : Decimal
  DifferenceTaxableAmountCurr : Decimal
  DifferenceTaxableAmount : Decimal
  DifferenceTaxAmountCurr : Decimal
  DifferenceTaxAmount : Decimal
  DifferenceTaxInclusiveAmountCurr : Decimal
  DifferenceTaxInclusiveAmount : Decimal
  TaxCategory : TaxCategory
deriving DecidableEq, Repr

structure TaxTotal where
  TaxSubTotal : List TaxSubTotal
  TaxAmountCurr : Decimal
  TaxAmount : Decimal
deriving DecidableEq, Repr

/-- LegalMonetaryTotal carries document totals (schema.LegalMonetaryTotal). -/
structure LegalMonetaryTotal where
  TaxExclusiveAmount : Decimal
  TaxExclusiveAmountCurr : Decimal
  TaxInclusiveAmount : Decimal
  TaxInclusiveAmountCurr : Decimal
  AlreadyClaimedTaxExclusiveAmount : Decimal
  AlreadyClaimedTaxExclusiveAmountCurr : Decimal
  AlreadyClaimedTaxInclusiveAmount : Decimal
  AlreadyClaimedTaxInclusiveAmountCurr : Decimal
  DifferenceTaxExclusiveAmount : Decimal
  DifferenceTaxExclusiveAmountCurr : Decimal
  DifferenceTaxInclusiveAmount : Decimal
  DifferenceTaxInclusiveAmountCurr : Decimal
  PayableRoundingAmount : Decimal
  PayableRoundingAmountCurr : Decimal
  PaidDepositsAmount : Decimal
  PaidDepositsAmountCurr : Decimal
  PayableAmount : Decimal
  PayableAmountCurr : Decimal
deriving DecidableEq, Repr

structure NonTaxedDeposit where
  ID : String
  VariableSymbol : String
  DepositAmountCurr : Decimal
  DepositAmount : Decimal
deriving DecidableEq, Repr

structure NonTaxedDeposits where
  NonTaxedDeposit : List NonTaxedDeposit
deriving DecidableEq, Repr

structure TaxedDeposit where
  ID : String
  VariableSymbol : String
  TaxableDepositAmountCurr : Decimal
  TaxableDepositAmount : Decimal
  TaxInclusiveDepositAmountCurr : Decimal
  TaxInclusiveDepositAmount : Decimal
  ClassifiedTaxCategory : ClassifiedTaxCategory
deriving DecidableEq, Repr

structure TaxedDeposits where
  TaxedDeposit : List TaxedDeposit
deriving DecidableEq, Repr

structure BankAccount where
  ID : String
  BankCode : String
  Name : String
  IBAN : String
  BIC : String
deriving DecidableEq, Repr

structure AlternateBankAccounts where
  AlternateBankAccount : List BankAccount
deriving DecidableEq, Repr

structure PaymentDetails where
  DocumentID : String
  IssueDate : Date
  PaymentDueDate : Date
  VariableSymbol : String
  ConstantSymbol : String
  SpecificSymbol : String
  BankAccount : Option BankAccount
deriving DecidableEq, Repr

structure Payment where
  PaidAmount : Decimal
  PaymentMeansCode : Int
  Details : Option PaymentDetails
deriving DecidableEq, Repr

structure PaymentMeans where
  Payment : List Payment
  AlternateBankAccounts : Option AlternateBankAccounts
deriving DecidableEq, Repr

structure Supplement where
  Filename : String
  DigestMethod : String
  DigestValue : String
  Preview : Bool
deriving DecidableEq, Repr

structure SupplementsList where
  Supplement : List Supplement
deriving DecidableEq, Repr

/-- Invoice is the root entity of an ISDOC tax document (schema.Invoice).
The XMLName marker field has no data content and is not modelled. -/
structure Invoice where
  Version : String
  DocumentType : Int
  SubDocumentType : String
  SubDocumentTypeOrigin : String
  TargetConsolidator : String
  ClientOnTargetConsolidator : String
  ClientBankAccount : String
  ID : String
  UUID : UUID
  EgovFlag : Bool
  ISDS_ID : String
  FileReference : String
  ReferenceNumber : String
  EgovClassifiers : Option EgovClassifiers
  IssuingSystem : String
  IssueDate : Date
  TaxPointDate : Date
  VATApplicable : Bool
  ElectronicPossibilityAgreementReference : Note
  Note : Option Note
  LocalCurrencyCode : String
  ForeignCurrencyCode : String
  CurrRate : Decimal
  RefCurrRate : Decimal
  Extensions : Option Extensions
  AccountingSupplierParty : AccountingSupplierParty
  SellerSupplierParty : Option SellerSupplierParty
  AnonymousCustomerParty : Option AnonymousCustomerParty
  AccountingCustomerParty : Option AccountingCustomerParty
  BuyerCustomerParty : Option BuyerCustomerParty
  OrderReferences : Option OrderReferences
  DeliveryNoteReferences : Option DeliveryNoteReferences
  OriginalDocumentReferences : Option OriginalDocumentReferences
  ContractReferences : Option ContractReferences
  Delivery : Option Delivery
  InvoiceLines : InvoiceLines
  NonTaxedDeposits : Option NonTaxedDeposits
  TaxedDeposits : Option TaxedDeposits
  TaxTotal : TaxTotal
  LegalMonetaryTotal : LegalMonetaryTotal
  PaymentMeans : Option PaymentMeans
  SupplementsList : Option SupplementsList
deriving DecidableEq, Repr

/-! ## Diagnostics (errors.go) -/

/-- Severity of a validation error (Go: Severity). -/
inductive Severity where
  | error
  | warning
deriving DecidableEq, Repr

def ErrCodeRequiredField : String := "REQUIRED_FIELD"
def ErrCodeInvalidEnum : String := "INVALID_ENUM"
def ErrCodeInvalidDecimal : String := "INVALID_DECIMAL"
def ErrCodeInvalidDate : String := "INVALID_DATE"
def ErrCodeInvalidUUID : String := "INVALID_UUID"
def ErrCodeInvalidPattern : String := "INVALID_PATTERN"
def ErrCodeInvalidLength : String := "INVALID_LENGTH"
def ErrCodeTotalMismatch : String := "TOTAL_MISMATCH"
def ErrCodeVATMismatch : String := "VAT_MISMATCH"
def ErrCodeReferenceNotFound : String := "REFERENCE_NOT_FOUND"
def ErrCodeDuplicateID : String := "DUPLICATE_ID"
def ErrCodeInvalidXML : String := "INVALID_XML"
def ErrCodeSchemaViolation : String := "SCHEMA_VIOLATION"

/-- ValidationError carries the dotted field path, the machine-readable code
and the severity (Go: ValidationError).  The human-readable Msg string is
presentation-only and is not modelled. -/
structure ValidationError where
  Field : String
  Code : String
  Severity : Severity
deriving DecidableEq, Repr

/-! ## Validator (validate.go) -/

/-- ValidateOptions configures validation behavior (Go: ValidateOptions). -/
structure ValidateOptions where
  Strict : Bool
  AllowRoundingTolerance : Bool
  Tolerance : Decimal
deriving DecidableEq, Repr

/-- DefaultValidateOptions: non-strict, rounding tolerance allowed, 0.01. -/
def DefaultValidateOptions : ValidateOptions :=
  ⟨false, true, "0.01"⟩

/-- UUID.IsZero: the UUID is unset when empty (Go: UUID.IsZero). -/
def uuidIsZero (u : UUID) : Bool :=
  u == ""

/-- validateParty checks the required sub-fields of one Party (Go:
validateParty). -/
def validateParty (path : String) (party : Party) (opts : ValidateOptions) :
    List ValidationError :=
  let severity := if opts.Strict then Severity.error else Severity.warning
  (if party.PartyIdentification.ID = "" then
    [⟨path ++ ".PartyIdentification.ID", ErrCodeRequiredField, .error⟩] else []) ++
  (if party.PartyName.Name = "" then
    [⟨path ++ ".PartyName.Name", ErrCodeRequiredField, .error⟩] else []) ++
  (if party.PostalAddress.CityName = "" then
    [⟨path ++ ".PostalAddress.CityName", ErrCodeRequiredField, severity⟩] else []) ++
  (if party.PostalAddress.Country.IdentificationCode = "" then
    [⟨path ++ ".PostalAddress.Country.IdentificationCode", ErrCodeRequiredField, severity⟩] else [])

/-- validateInvoiceLine checks one invoice line (Go: validateInvoiceLine;
the Go body also contains an empty branch on LineExtensionAmount that
appends nothing and is therefore not modelled). -/
def validateInvoiceLine (path : String) (line : InvoiceLine)
    (opts : ValidateOptions) : List ValidationError :=
  let severity := if opts.Strict then Severity.error else Severity.warning
  (if line.ID = "" then [⟨path ++ ".ID", ErrCodeRequiredField, .error⟩]
   else if line.ID.length > 36 then [⟨path ++ ".ID", ErrCodeInvalidLength, severity⟩]
   else []) ++
  (if decimalIsZero line.InvoicedQuantity.Value then
    [⟨path ++ ".InvoicedQuantity", ErrCodeRequiredField, severity⟩] else []) ++
  (if line.Item.Description = "" then
    [⟨path ++ ".Item.Description", ErrCodeRequiredField, severity⟩] else [])

/-- validateStructural checks required fields and structure (Go:
validateStructural). -/
def validateStructural (inv : Invoice) (opts : ValidateOptions) :
    List ValidationError :=
  let severity := if opts.Strict then Severity.error else Severity.warning
  (if inv.Version = "" then
    [⟨"Invoice.@version", ErrCodeRequiredField, .error⟩] else []) ++
  (if inv.DocumentType < 1 ∨ inv.DocumentType > 7 then
    [⟨"Invoice.DocumentType", ErrCodeInvalidEnum, .error⟩] else []) ++
  (if inv.ID = "" then
    [⟨"Invoice.ID", ErrCodeRequiredField, .error⟩] else []) ++
  (if uuidIsZero inv.UUID then
    [⟨"Invoice.UUID", ErrCodeRequiredField, .error⟩] else []) ++
  (if dateIsZero inv.IssueDate then
    [⟨"Invoice.IssueDate", ErrCodeRequiredField, .error⟩] else []) ++
  (if inv.LocalCurrencyCode = "" then
    [⟨"Invoice.LocalCurrencyCode", ErrCodeRequiredField, .error⟩]
   else if inv.LocalCurrencyCode.length ≠ 3 then
    [⟨"Invoice.LocalCurrencyCode", ErrCodeInvalidLength, severity⟩]
   else []) ++
  (if decimalIsZero inv.CurrRate then
    [⟨"Invoice.CurrRate", ErrCodeRequiredField, .error⟩] else []) ++
  (if decimalIsZero inv.RefCurrRate then
    [⟨"Invoice.RefCurrRate", ErrCodeRequiredField, .error⟩] else []) ++
  validateParty "Invoice.AccountingSupplierParty.Party"
    inv.AccountingSupplierParty.Party opts ++
  (match inv.AccountingCustomerParty, inv.AnonymousCustomerParty with
   | none, none =>
      if inv.DocumentType ≠ 7 then
        [⟨"Invoice.AccountingCustomerParty", ErrCodeRequiredField, .error⟩]
      else []
   | some acp, _ =>
      validateParty "Invoice.AccountingCustomerParty.Party" acp.Party opts
   | none, some _ => []) ++
  (if inv.InvoiceLines.InvoiceLine.length = 0 then
    [⟨"Invoice.InvoiceLines", ErrCodeRequiredField, .error⟩] else []) ++
  (inv.InvoiceLines.InvoiceLine.enum.flatMap fun p =>
    validateInvoiceLine ("Invoice.InvoiceLines.InvoiceLine[" ++ toString p.1 ++ "]")
      p.2 opts) ++
  (if inv.TaxTotal.TaxSubTotal.length = 0 then
    [⟨"Invoice.TaxTotal.TaxSubTotal", ErrCodeRequiredField, severity⟩] else []) ++
  (if decimalIsZero inv.LegalMonetaryTotal.TaxExclusiveAmount ∧
      decimalIsZero inv.LegalMonetaryTotal.TaxInclusiveAmount then
    [⟨"Invoice.LegalMonetaryTotal", ErrCodeRequiredField, severity⟩] else [])

/-- validateOriginalDocumentLink: document types 2, 3 and 6 require at least
one OriginalDocumentReference (Go: validateOriginalDocumentLink). -/
def validateOriginalDocumentLink (inv : Invoice) (_opts : ValidateOptions) :
    List ValidationError :=
  if inv.DocumentType = 2 ∨ inv.DocumentType = 3 ∨ inv.DocumentType = 6 then
    match inv.OriginalDocumentReferences with
    | none => [⟨"Invoice.OriginalDocumentReferences", ErrCodeRequiredField, .error⟩]
    | some refs =>
        if refs.OriginalDocumentReference.length = 0 then
          [⟨"Invoice.OriginalDocumentReferences", ErrCodeRequiredField, .error⟩]
        else []
  else []

/-- One required-when-foreign check: the base amount is set but its foreign
companion is not.  The repeated if-blocks of Go validateForeignCurrencyFieldsPresent
are instances of this shape. -/
def reqCurr (field : String) (base curr : Decimal) (severity : Severity) :
    List ValidationError :=
  if ¬ decimalIsZero base ∧ decimalIsZero curr then
    [⟨field, ErrCodeRequiredField, severity⟩]
  else []

/-- One must-not-be-set check: a foreign companion field is set although no
foreign currency is declared.  The repeated if-blocks of Go
validateNoForeignCurrencyFields are instances of this shape. -/
def noCurr (field : String) (curr : Decimal) (severity : Severity) :
    List ValidationError :=
  if ¬ decimalIsZero curr then
    [⟨field, ErrCodeSchemaViolation, severity⟩]
  else []

/-- validateForeignCurrencyFieldsPresent checks that every populated amount
has its foreign-currency companion populated when ForeignCurrencyCode is set
(Go: validateForeignCurrencyFieldsPresent). -/
def validateForeignCurrencyFieldsPresent (inv : Invoice)
    (opts : ValidateOptions) : List ValidationError :=
  let severity := if opts.Strict then Severity.error else Severity.warning
  let lmt := inv.LegalMonetaryTotal
  reqCurr "Invoice.LegalMonetaryTotal.TaxExclusiveAmountCurr"
    lmt.TaxExclusiveAmount lmt.TaxExclusiveAmountCurr severity ++
  reqCurr "Invoice.LegalMonetaryTotal.TaxInclusiveAmountCurr"
    lmt.TaxInclusiveAmount lmt.TaxInclusiveAmountCurr severity ++
  reqCurr "Invoice.LegalMonetaryTotal.PayableAmountCurr"
    lmt.PayableAmount lmt.PayableAmountCurr severity ++
  reqCurr "Invoice.LegalMonetaryTotal.PayableRoundingAmountCurr"
    lmt.PayableRoundingAmount lmt.PayableRoundingAmountCurr severity ++
  reqCurr "Invoice.LegalMonetaryTotal.PaidDepositsAmountCurr"
    lmt.PaidDepositsAmount lmt.PaidDepositsAmountCurr severity ++
  reqCurr "Invoice.LegalMonetaryTotal.AlreadyClaimedTaxExclusiveAmountCurr"
    lmt.AlreadyClaimedTaxExclusiveAmount lmt.AlreadyClaimedTaxExclusiveAmountCurr severity ++
  reqCurr "Invoice.LegalMonetaryTotal.AlreadyClaimedTaxInclusiveAmountCurr"
    lmt.AlreadyClaimedTaxInclusiveAmount lmt.AlreadyClaimedTaxInclusiveAmountCurr severity ++
  reqCurr "Invoice.LegalMonetaryTotal.DifferenceTaxExclusiveAmountCurr"
    lmt.DifferenceTaxExclusiveAmount lmt.DifferenceTaxExclusiveAmountCurr severity ++
  reqCurr "Invoice.LegalMonetaryTotal.DifferenceTaxInclusiveAmountCurr"
    lmt.DifferenceTaxInclusiveAmount lmt.DifferenceTaxInclusiveAmountCurr severity ++
  reqCurr "Invoice.TaxTotal.TaxAmountCurr"
    inv.TaxTotal.TaxAmount inv.TaxTotal.TaxAmountCurr severity ++
  (inv.TaxTotal.TaxSubTotal.enum.flatMap fun p =>
    let path := "Invoice.TaxTotal.TaxSubTotal[" ++ toString p.1 ++ "]"
    let sub := p.2
    reqCurr (path ++ ".TaxableAmountCurr") sub.TaxableAmount sub.TaxableAmountCurr severity ++
    reqCurr (path ++ ".TaxAmountCurr") sub.TaxAmount sub.TaxAmountCurr severity ++
    reqCurr (path ++ ".TaxInclusiveAmountCurr")
      sub.TaxInclusiveAmount sub.TaxInclusiveAmountCurr severity ++
    reqCurr (path ++ ".AlreadyClaimedTaxableAmountCurr")
      sub.AlreadyClaimedTaxableAmount sub.AlreadyClaimedTaxableAmountCurr severity ++
    reqCurr (path ++ ".AlreadyClaimedTaxAmountCurr")
      sub.AlreadyClaimedTaxAmount sub.AlreadyClaimedTaxAmountCurr severity ++
    reqCurr (path ++ ".AlreadyClaimedTaxInclusiveAmountCurr")
      sub.AlreadyClaimedTaxInclusiveAmount sub.AlreadyClaimedTaxInclusiveAmountCurr severity ++
    reqCurr (path ++ ".DifferenceTaxableAmountCurr")
      sub.DifferenceTaxableAmount sub.DifferenceTaxableAmountCurr severity ++
    reqCurr (path ++ ".DifferenceTaxAmountCurr")
      sub.DifferenceTaxAmount sub.DifferenceTaxAmountCurr severity ++
    reqCurr (path ++ ".DifferenceTaxInclusiveAmountCurr")
      sub.DifferenceTaxInclusiveAmount sub.DifferenceTaxInclusiveAmountCurr severity) ++
  (inv.InvoiceLines.InvoiceLine.enum.flatMap fun p =>
    let path := "Invoice.InvoiceLines.InvoiceLine[" ++ toString p.1 ++ "]"
    reqCurr (path ++ ".LineExtensionAmountCurr")
      p.2.LineExtensionAmount p.2.LineExtensionAmountCurr severity ++
    reqCurr (path ++ ".LineExtensionAmountTaxInclusiveCurr")
      p.2.LineExtensionAmountTaxInclusive p.2.LineExtensionAmountTaxInclusiveCurr severity) ++
  (match inv.NonTaxedDeposits with
   | none => []
   | some nd => nd.NonTaxedDeposit.enum.flatMap fun p =>
      let path := "Invoice.NonTaxedDeposits.NonTaxedDeposit[" ++ toString p.1 ++ "]"
      reqCurr (path ++ ".DepositAmountCurr")
        p.2.DepositAmount p.2.DepositAmountCurr severity) ++
  (match inv.TaxedDeposits with
   | none => []
   | some td => td.TaxedDeposit.enum.flatMap fun p =>
      let path := "Invoice.TaxedDeposits.TaxedDeposit[" ++ toString p.1 ++ "]"
      reqCurr (path ++ ".TaxableDepositAmountCurr")
        p.2.TaxableDepositAmount p.2.TaxableDepositAmountCurr severity ++
      reqCurr (path ++ ".TaxInclusiveDepositAmountCurr")
        p.2.TaxInclusiveDepositAmount p.2.TaxInclusiveDepositAmountCurr severity)

/-- validateNoForeignCurrencyFields checks that no foreign-currency
companion field is populated when no ForeignCurrencyCode is declared (Go:
validateNoForeignCurrencyFields). -/
def validateNoForeignCurrencyFields (inv : Invoice) (opts : ValidateOptions) :
    List ValidationError :=
  let severity := if opts.Strict then Severity.error else Severity.warning
  let lmt := inv.LegalMonetaryTotal
  noCurr "Invoice.LegalMonetaryTotal.TaxExclusiveAmountCurr" lmt.TaxExclusiveAmountCurr severity ++
  noCurr "Invoice.LegalMonetaryTotal.TaxInclusiveAmountCurr" lmt.TaxInclusiveAmountCurr severity ++
  noCurr "Invoice.LegalMonetaryTotal.PayableAmountCurr" lmt.PayableAmountCurr severity ++
  noCurr "Invoice.LegalMonetaryTotal.PayableRoundingAmountCurr" lmt.PayableRoundingAmountCurr severity ++
  noCurr "Invoice.LegalMonetaryTotal.PaidDepositsAmountCurr" lmt.PaidDepositsAmountCurr severity ++
  noCurr "Invoice.LegalMonetaryTotal.AlreadyClaimedTaxExclusiveAmountCurr"
    lmt.AlreadyClaimedTaxExclusiveAmountCurr severity ++
  noCurr "Invoice.LegalMonetaryTotal.AlreadyClaimedTaxInclusiveAmountCurr"
    lmt.AlreadyClaimedTaxInclusiveAmountCurr severity ++
  noCurr "Invoice.LegalMonetaryTotal.DifferenceTaxExclusiveAmountCurr"
    lmt.DifferenceTaxExclusiveAmountCurr severity ++
  noCurr "Invoice.LegalMonetaryTotal.DifferenceTaxInclusiveAmountCurr"
    lmt.DifferenceTaxInclusiveAmountCurr severity ++
  noCurr "Invoice.TaxTotal.TaxAmountCurr" inv.TaxTotal.TaxAmountCurr severity ++
  (inv.TaxTotal.TaxSubTotal.enum.flatMap fun p =>
    let path := "Invoice.TaxTotal.TaxSubTotal[" ++ toString p.1 ++ "]"
    let sub := p.2
    noCurr (path ++ ".TaxableAmountCurr") sub.TaxableAmountCurr severity ++
    noCurr (path ++ ".TaxAmountCurr") sub.TaxAmountCurr severity ++
    noCurr (path ++ ".TaxInclusiveAmountCurr") sub.TaxInclusiveAmountCurr severity ++
    noCurr (path ++ ".AlreadyClaimedTaxableAmountCurr") sub.AlreadyClaimedTaxableAmountCurr severity ++
    noCurr (path ++ ".AlreadyClaimedTaxAmountCurr") sub.AlreadyClaimedTaxAmountCurr severity ++
    noCurr (path ++ ".AlreadyClaimedTaxInclusiveAmountCurr")
      sub.AlreadyClaimedTaxInclusiveAmountCurr severity ++
    noCurr (path ++ ".DifferenceTaxableAmountCurr") sub.DifferenceTaxableAmountCurr severity ++
    noCurr (path ++ ".DifferenceTaxAmountCurr") sub.DifferenceTaxAmountCurr severity ++
    noCurr (path ++ ".DifferenceTaxInclusiveAmountCurr")
      sub.DifferenceTaxInclusiveAmountCurr severity) ++
  (inv.InvoiceLines.InvoiceLine.enum.flatMap fun p =>
    let path := "Invoice.InvoiceLines.InvoiceLine[" ++ toString p.1 ++ "]"
    noCurr (path ++ ".LineExtensionAmountCurr") p.2.LineExtensionAmountCurr severity ++
    noCurr (path ++ ".LineExtensionAmountTaxInclusiveCurr")
      p.2.LineExtensionAmountTaxInclusiveCurr severity) ++
  (match inv.NonTaxedDeposits with
   | none => []
   | some nd => nd.NonTaxedDeposit.enum.flatMap fun p =>
      let path := "Invoice.NonTaxedDeposits.NonTaxedDeposit[" ++ toString p.1 ++ "]"
      noCurr (path ++ ".DepositAmountCurr") p.2.DepositAmountCurr severity) ++
  (match inv.TaxedDeposits with
   | none => []
   | some td => td.TaxedDeposit.enum.flatMap fun p =>
      let path := "Invoice.TaxedDeposits.TaxedDeposit[" ++ toString p.1 ++ "]"
      noCurr (path ++ ".TaxableDepositAmountCurr") p.2.TaxableDepositAmountCurr severity ++
      noCurr (path ++ ".TaxInclusiveDepositAmountCurr")
        p.2.TaxInclusiveDepositAmountCurr severity)

/-- validateCurrencyConsistency validates foreign/domestic currency
consistency (Go: validateCurrencyConsistency). -/
def validateCurrencyConsistency (inv : Invoice) (opts : ValidateOptions) :
    List ValidationError :=
  let severity := if opts.Strict then Severity.error else Severity.warning
  let hasForeignCurrency := inv.ForeignCurrencyCode ≠ ""
  if hasForeignCurrency then
    (if inv.ForeignCurrencyCode = inv.LocalCurrencyCode then
      [⟨"Invoice.ForeignCurrencyCode", ErrCodeSchemaViolation, .error⟩] else []) ++
    validateForeignCurrencyFieldsPresent inv opts
  else
    (if ¬ decimalIsZero inv.CurrRate ∧ ¬ decimalEqual inv.CurrRate "1" then
      [⟨"Invoice.CurrRate", ErrCodeSchemaViolation, severity⟩] else []) ++
    (if ¬ decimalIsZero inv.RefCurrRate ∧ ¬ decimalEqual inv.RefCurrRate "1" then
      [⟨"Invoice.RefCurrRate", ErrCodeSchemaViolation, severity⟩] else []) ++
    validateNoForeignCurrencyFields inv opts

/-- validateVATConsistency: a VAT-inapplicable invoice may not contain a
VAT-applicable line (Go: validateVATConsistency). -/
def validateVATConsistency (inv : Invoice) (_opts : ValidateOptions) :
    List ValidationError :=
  if ¬ inv.VATApplicable then
    inv.InvoiceLines.InvoiceLine.enum.flatMap fun p =>
      if p.2.ClassifiedTaxCategory.VATApplicable then
        [⟨"Invoice.InvoiceLines.InvoiceLine[" ++ toString p.1 ++
            "].ClassifiedTaxCategory.VATApplicable", ErrCodeVATMismatch, .error⟩]
      else []
  else []

/-- validateItemIdentificationHierarchy: a secondary seller identification
requires a primary one, a tertiary requires both (Go:
validateItemIdentificationHierarchy). -/
def validateItemIdentificationHierarchy (inv : Invoice)
    (opts : ValidateOptions) : List ValidationError :=
  let severity := if opts.Strict then Severity.error else Severity.warning
  inv.InvoiceLines.InvoiceLine.enum.flatMap fun p =>
    let path := "Invoice.InvoiceLines.InvoiceLine[" ++ toString p.1 ++ "].Item"
    (if p.2.Item.SecondarySellersItemIdentification.isSome ∧
        p.2.Item.SellersItemIdentification.isNone then
      [⟨path ++ ".SecondarySellersItemIdentification", ErrCodeSchemaViolation, severity⟩]
     else []) ++
    (if p.2.Item.TertiarySellersItemIdentification.isSome ∧
        (p.2.Item.SellersItemIdentification.isNone ∨
         p.2.Item.SecondarySellersItemIdentification.isNone) then
      [⟨path ++ ".TertiarySellersItemIdentification", ErrCodeSchemaViolation, severity⟩]
     else [])

/-- Per-batch step of validateStoreBatches: accumulate unit-code mismatch
errors, the quantity sum, and the distinct unit codes seen. -/
def storeBatchStep (lineUnitCode path : String) (severity : Severity)
    (acc : List ValidationError × Frac × List String) (q : Nat × StoreBatch) :
    List ValidationError × Frac × List String :=
  let batchPath := path ++ ".Item.StoreBatches.StoreBatch[" ++ toString q.1 ++ "]"
  let batchUnitCode := q.2.Quantity.UnitCode
  let seen := if batchUnitCode ≠ "" ∧ batchUnitCode ∉ acc.2.2 then
      acc.2.2 ++ [batchUnitCode]
    else acc.2.2
  let errs := acc.1 ++
    (if lineUnitCode ≠ "" ∧ batchUnitCode ≠ "" ∧ batchUnitCode ≠ lineUnitCode then
      [⟨batchPath ++ ".Quantity", ErrCodeSchemaViolation, severity⟩]
     else [])
  (errs, (acc.2.1).add (decimalFloat64 q.2.Quantity.Value), seen)

/-- validateStoreBatches checks batch unit-code consistency and that the
batch quantities sum to the invoiced quantity.  The sum comparison uses the
fixed local threshold 0.0001 that the Go code declares inline; the
Tolerance field of ValidateOptions is not consulted by the Go code (Go:
validateStoreBatches). -/
def validateStoreBatches (inv : Invoice) (opts : ValidateOptions) :
    List ValidationError :=
  let severity := if opts.Strict then Severity.error else Severity.warning
  inv.InvoiceLines.InvoiceLine.enum.flatMap fun p =>
    match p.2.Item.StoreBatches with
    | none => []
    | some sb =>
      if sb.StoreBatch.length = 0 then []
      else
        let path := "Invoice.InvoiceLines.InvoiceLine[" ++ toString p.1 ++ "]"
        let lineUnitCode := p.2.InvoicedQuantity.UnitCode
        let r := (sb.StoreBatch.enum).foldl
          (storeBatchStep lineUnitCode path severity) ([], Frac.zero, [])
        let invoicedQty := decimalFloat64 p.2.InvoicedQuantity.Value
        let tolerance : Frac := ⟨1, 10000⟩
        let diff := (r.2.1).sub invoicedQty
        r.1 ++
        (if r.2.2.length > 1 then
          [⟨path ++ ".Item.StoreBatches", ErrCodeSchemaViolation, severity⟩] else []) ++
        (if tolerance.ltb diff ∨ diff.ltb tolerance.neg then
          [⟨path ++ ".Item.StoreBatches", ErrCodeTotalMismatch, severity⟩] else [])

/-- validateSemantic runs the five business rules in order (Go:
validateSemantic). -/
def validateSemantic (inv : Invoice) (opts : ValidateOptions) :
    List ValidationError :=
  validateOriginalDocumentLink inv opts ++
  validateCurrencyConsistency inv opts ++
  validateVATConsistency inv opts ++
  validateItemIdentificationHierarchy inv opts ++
  validateStoreBatches inv opts

/-- ValidateInvoiceWithOptions runs the structural then the semantic pass,
accumulating all diagnostics (Go: ValidateInvoiceWithOptions). -/
def ValidateInvoiceWithOptions (inv : Invoice) (opts : ValidateOptions) :
    List ValidationError :=
  validateStructural inv opts ++ validateSemantic inv opts

/-- ValidateInvoice validates with the default options (Go: ValidateInvoice). -/
def ValidateInvoice (inv : Invoice) : List ValidationError :=
  ValidateInvoiceWithOptions inv DefaultValidateOptions


/-! ## Decoder reference resolution (decode.go) -/

/-- Kinds of header reference collections consumed by line back-references. -/
inductive RefKind where
  | order
  | deliveryNote
  | originalDocument
  | contract
deriving DecidableEq, Repr

/-- Paths of decode diagnostics, structured.  RefPath.render reproduces the
exact strings that the Go code builds with fmt.Sprintf. -/
inductive RefPath where
  | headerRef (kind : RefKind) (idx : Nat)
  | lineRef (idx : Nat) (kind : RefKind)
deriving DecidableEq, Repr

def refCollectionName : RefKind → String
  | .order => "OrderReferences"
  | .deliveryNote => "DeliveryNoteReferences"
  | .originalDocument => "OriginalDocumentReferences"
  | .contract => "ContractReferences"

def refEntryName : RefKind → String
  | .order => "OrderReference"
  | .deliveryNote => "DeliveryNoteReference"
  | .originalDocument => "OriginalDocumentReference"
  | .contract => "ContractReference"

/-- Rendering of a structured decode path as the Go path string. -/
def RefPath.render : RefPath → String
  | .headerRef k i =>
      "Invoice." ++ refCollectionName k ++ "." ++ refEntryName k ++
        "[" ++ toString i ++ "]"
  | .lineRef i k =>
      "Invoice.InvoiceLines.InvoiceLine[" ++ toString i ++ "]." ++ refEntryName k

/-- Payload of a decode diagnostic: a duplicate declared identifier or an
unresolvable line back-reference (the two error shapes of Go
resolveReferences). -/
inductive RefErr where
  | duplicateId (id : String)
  | unresolvedRef (ref : String)
deriving DecidableEq, Repr

/-- DecodeError pairs the diagnostic path with its payload (Go: DecodeError;
the path is kept structured here and rendered by RefPath.render). -/
structure DecodeError where
  Path : RefPath
  Err : RefErr
deriving DecidableEq, Repr

def allRefKinds : List RefKind :=
  [.order, .deliveryNote, .originalDocument, .contract]

/-- Declared identifiers of one header reference collection, in order (nil
collection contributes nothing, as the Go nil-guard skips the loop). -/
def entryIds (inv : Invoice) : RefKind → List String
  | .order =>
      match inv.OrderReferences with
      | none => []
      | some c => c.OrderReference.map (·.ID)
  | .deliveryNote =>
      match inv.DeliveryNoteReferences with
      | none => []
      | some c => c.DeliveryNoteReference.map (·.ID)
  | .originalDocument =>
      match inv.OriginalDocumentReferences with
      | none => []
      | some c => c.OriginalDocumentReference.map (·.ID)
  | .contract =>
      match inv.ContractReferences with
      | none => []
      | some c => c.ContractReference.map (·.ID)

/-- One header-collection loop of Go resolveReferences: walk the declared
identifiers, emit a duplicate-id error on every repeated non-empty
identifier, and return the set of identifiers seen (the Go boolean map is
modelled as a duplicate-free list). -/
def headerIdStep (kind : RefKind) (acc : List DecodeError × List String)
    (p : Nat × String) : List DecodeError × List String :=
  if p.2 ≠ "" then
    (acc.1 ++
      (if p.2 ∈ acc.2 then [⟨.headerRef kind p.1, .duplicateId p.2⟩] else []),
     if p.2 ∈ acc.2 then acc.2 else acc.2 ++ [p.2])
  else acc

def collectHeaderIds (kind : RefKind) (ids : List String) :
    List DecodeError × List String :=
  ids.enum.foldl (headerIdStep kind) ([], [])

/-- Back-reference token of one line for one collection kind (nil pointer
becomes none). -/
def lineRefOf (line : InvoiceLine) : RefKind → Option String
  | .order => line.OrderReference.map (·.Ref)
  | .deliveryNote => line.DeliveryNoteReference.map (·.Ref)
  | .originalDocument => line.OriginalDocumentReference.map (·.Ref)
  | .contract => line.ContractReference.map (·.Ref)

/-- One line-reference check of Go resolveReferences: a present, non-empty
token that resolves to no declared identifier yields one error. -/
def checkLineRef (kind : RefKind) (i : Nat) (r : Option String)
    (ids : List String) : List DecodeError :=
  match r with
  | some ref =>
      if ref ≠ "" ∧ ref ∉ ids then [⟨.lineRef i kind, .unresolvedRef ref⟩] else []
  | none => []

/-- resolveReferences validates id/ref linkages: first the four header
collections (duplicate identifiers), then for each line its four
back-references, in the source order (Go: resolveReferences; the four
structurally identical Go loops are the four RefKind instances). -/
def resolveReferences (inv : Invoice) : List DecodeError :=
  (allRefKinds.flatMap fun k => (collectHeaderIds k (entryIds inv k)).1) ++
  (inv.InvoiceLines.InvoiceLine.enum.flatMap fun p =>
    allRefKinds.flatMap fun k =>
      checkLineRef k p.1 (lineRefOf p.2 k)
        (collectHeaderIds k (entryIds inv k)).2)

/-- DecodeBytes: pass 1 is XML unmarshaling (the Go standard library call,
abstracted here as the given outcome), pass 2 is reference resolution.  A
parse failure aborts with no Invoice; otherwise the populated Invoice is
returned together with the resolution diagnostics — both Go return paths
hand back the invoice (Go: DecodeBytes). -/
def DecodeBytes (unmarshal : Except String Invoice) :
    Except String (Invoice × List DecodeError) :=
  match unmarshal with
  | .error e => .error ("XML parsing: " ++ e)
  | .ok invoice => .ok (invoice, resolveReferences invoice)


/-! ## Encoder (encode.go) -/

/-- XmlNode models the emitted XML at the element-tree level. Indentation,
text escaping and the XML declaration are byte-level presentation that is
invisible at this level and not modelled. -/
inductive XmlNode where
  | text (s : String)
  | elem (name : String) (children : List XmlNode)

/-- GoValue is a reflection-level model of the values the encoder walks:
strings, ints, bools, slices (with a nil flag), pointers, scalar structs
that implement xml.Marshaler with a Stringer form and an IsZero method
(such as Date), and plain composite structs carrying their type name and
their tagged fields.  A field entry holds the element name (the first part
of the xml tag) and the field value, in declaration order; untagged,
dash-tagged and chardata fields carry the empty element name. -/
inductive GoValue where
  | str (s : String)
  | int (n : Int)
  | bool (b : Bool)
  | slice (isNil : Bool) (elems : List GoValue)
  | ptr (inner : Option GoValue)
  | scalar (stringVal : String) (zero : Bool)
  | comp (typeName : String) (fields : List (String × GoValue))

/-- isZero decides field omission (Go: Encoder.isZero): nil pointers, nil or
empty slices, empty strings and zero ints are zero; booleans never are;
scalar structs answer through their IsZero method; plain composite structs
have no IsZero method and are never zero. -/
def isZero : GoValue → Bool
  | .ptr none => true
  | .ptr (some _) => false
  | .slice isNil elems => isNil || elems.isEmpty
  | .str s => s == ""
  | .bool _ => false
  | .int n => n == 0
  | .scalar _ z => z
  | .comp _ _ => false

/-- Names skipped when building the field map (Go: Encoder.extractFields
skips attribute-style names, xmlns, and empty element names; fields whose
whole tag is empty or a dash are modelled as carrying the empty name). -/
def skipFieldName (n : String) : Bool :=
  n = "" || (match n.data with | '@' :: _ => true | _ => false) || n = "xmlns"

def assocFind (fields : List (String × GoValue)) (n : String) : Option GoValue :=
  match fields with
  | [] => none
  | f :: rest => if f.1 = n then some f.2 else assocFind rest n

/-- Size bound used for the termination of encodeValue: a value found in a
field list is smaller than the list. -/
def sizeOf_assocFind : ∀ {fields : List (String × GoValue)} {n : String}
    {v : GoValue}, assocFind fields n = some v → sizeOf v < sizeOf fields := by
  intro fields
  induction fields with
  | nil => intro n v h; simp [assocFind] at h
  | cons f rest ih =>
    intro n v h
    obtain ⟨fn, fv⟩ := f
    simp only [assocFind] at h
    split at h
    · cases h
      simp only [List.cons.sizeOf_spec, Prod.mk.sizeOf_spec]
      omega
    · have := ih h
      simp only [List.cons.sizeOf_spec, Prod.mk.sizeOf_spec]
      omega

/-- Lookup in the extracted field map (Go: extractFields then map indexing;
field element names are unique in every schema struct, so first match and
Go map semantics agree). -/
def fieldsLookup (fields : List (String × GoValue)) (n : String) :
    Option GoValue :=
  if skipFieldName n then none else assocFind fields n

/-- OrderingTable is the shape of the schema-derived ordering.Sequence map:
composite type name to mandated child-element order, none for untabulated
types (a missing Go map entry). -/
abbrev OrderingTable := String → Option (List String)

/-- Decimal digit string of a natural number, as fmt %d prints it. -/
def goNatString (n : Nat) : String :=
  if n = 0 then "0" else ⟨(Nat.digits 10 n).reverse.map Nat.digitChar⟩

/-- Decimal digit string of an integer, as fmt %d prints it. -/
def goIntString (n : Int) : String :=
  if n < 0 then "-" ++ goNatString n.natAbs else goNatString n.natAbs

mutual

/-- encodeValue emits one value as zero or more elements under the given
element name (Go: Encoder.encodeValue).  The one pointer dereference of the
Go code happens here; a nil pointer emits nothing. -/
def encodeValue (seq : OrderingTable) (name : String) (v : GoValue) :
    List XmlNode :=
  match v with
  | .ptr none => []
  | .ptr (some w) => encodeAfterDeref seq name w
  | .str s => encodeAfterDeref seq name (.str s)
  | .int n => encodeAfterDeref seq name (.int n)
  | .bool b => encodeAfterDeref seq name (.bool b)
  | .slice z l => encodeAfterDeref seq name (.slice z l)
  | .scalar s z => encodeAfterDeref seq name (.scalar s z)
  | .comp t fs => encodeAfterDeref seq name (.comp t fs)
termination_by (sizeOf v, 1)
decreasing_by
  all_goals simp_wf
  all_goals first
  | (apply Prod.Lex.right; omega)
  | (apply Prod.Lex.left
     first
     | omega
     | (have hm := List.sizeOf_lt_of_mem e.2
        simp only [GoValue.slice.sizeOf_spec] at *
        omega)
     | (have hv := sizeOf_assocFind (by
          have hh := h
          simp only [fieldsLookup] at hh
          split at hh
          · exact absurd hh (by simp)
          · exact hh)
        simp only [GoValue.comp.sizeOf_spec] at *
        omega)
     | (obtain ⟨⟨fn2, fv2⟩, hf2⟩ := f
        have hm := List.sizeOf_lt_of_mem hf2
        simp only [GoValue.comp.sizeOf_spec, Prod.mk.sizeOf_spec] at *
        omega))

/-- Body of encodeValue after the pointer dereference: the zero check, then
the kind switch.  Strings emit their text (the empty-string re-check of the
Go code is kept although the zero check already caught it); ints and bools
emit their decimal or literal form, booleans unconditionally; slices emit
each element under the same name; scalar structs emit their Stringer form;
composite structs emit one element whose children follow the ordering-table
entry for the type, or field declaration order when the type has no entry.
A doubly nested pointer would fall to the reflection fallback of the Go
code; that case cannot arise from schema values and emits nothing here. -/
def encodeAfterDeref (seq : OrderingTable) (name : String) (v : GoValue) :
    List XmlNode :=
  if isZero v then []
  else
    match v with
    | .str s => if s = "" then [] else [.elem name [.text s]]
    | .int n => [.elem name [.text (goIntString n)]]
    | .bool b => [.elem name [.text (if b then "true" else "false")]]
    | .slice _ elems => elems.attach.flatMap fun e => encodeValue seq name e.1
    | .scalar sv _ => [.elem name [.text sv]]
    | .comp typeName fields =>
        match seq typeName with
        | some order =>
            [.elem name (order.flatMap fun en =>
              match h : fieldsLookup fields en with
              | some fv => encodeValue seq en fv
              | none => [])]
        | none =>
            [.elem name (fields.attach.flatMap fun f =>
              if f.1.1 = "" then [] else encodeValue seq f.1.1 f.1.2)]
    | .ptr _ => []
termination_by (sizeOf v, 0)
decreasing_by
  all_goals simp_wf
  all_goals first
  | (apply Prod.Lex.right; omega)
  | (apply Prod.Lex.left
     first
     | omega
     | (have hm := List.sizeOf_lt_of_mem e.2
        simp only [GoValue.slice.sizeOf_spec] at *
        omega)
     | (have hv := sizeOf_assocFind (by
          have hh := h
          simp only [fieldsLookup] at hh
          split at hh
          · exact absurd hh (by simp)
          · exact hh)
        simp only [GoValue.comp.sizeOf_spec] at *
        omega)
     | (obtain ⟨⟨fn2, fv2⟩, hf2⟩ := f
        have hm := List.sizeOf_lt_of_mem hf2
        simp only [GoValue.comp.sizeOf_spec, Prod.mk.sizeOf_spec] at *
        omega))

end

/-! ## Reflection view of the schema (extractFields over the schema structs) -/

/-- Rendering of a non-zero Date as the Go layout 2006-01-02 writes it:
components zero-padded to width 4, 2 and 2 (a component wider than its
field prints all its digits, which decoded dates never need). -/
def goZeroPad (w n : Nat) : String :=
  let s := goNatString n
  if s.length < w then (⟨List.replicate (w - s.length) '0'⟩ : String) ++ s else s

/-- String form of a Date (Go: Date.String): empty for the zero date,
otherwise the YYYY-MM-DD layout. -/
def dateString (d : Date) : String :=
  if dateIsZero d then ""
  else goZeroPad 4 d.year ++ "-" ++ goZeroPad 2 d.month ++ "-" ++ goZeroPad 2 d.day

/-- GoValue view of a Date field: a scalar struct with xml.Marshaler whose
Stringer form is Date.String and whose IsZero is the zero-date test. -/
def Date.toGoValue (d : Date) : GoValue :=
  .scalar (dateString d) (dateIsZero d)

def optPtr (f : α → GoValue) : Option α → GoValue
  | none => .ptr none
  | some a => .ptr (some (f a))

def Note.toGoValue (n : Note) : GoValue :=
  .comp "Note" [("", .str n.Value), ("languageID", .str n.LanguageID)]

def Extensions.toGoValue (e : Extensions) : GoValue :=
  .comp "Extensions" [("", .str e.Raw)]

def EgovClassifier.toGoValue (e : EgovClassifier) : GoValue :=
  .comp "EgovClassifier" [("", .str e.Value)]

def EgovClassifiers.toGoValue (e : EgovClassifiers) : GoValue :=
  .comp "EgovClassifiers"
    [("EgovClassifier", .slice false (e.EgovClassifier.map EgovClassifier.toGoValue))]

def OrderReference.toGoValue (r : OrderReference) : GoValue :=
  .comp "OrderReference"
    [("id", .str r.ID), ("SalesOrderID", .str r.SalesOrderID),
     ("ExternalOrderID", .str r.ExternalOrderID),
     ("IssueDate", r.IssueDate.toGoValue),
     ("ExternalOrderIssueDate", r.ExternalOrderIssueDate.toGoValue),
     ("UUID", .str r.UUID), ("ISDS_ID", .str r.ISDS_ID),
     ("FileReference", .str r.FileReference),
     ("ReferenceNumber", .str r.ReferenceNumber)]

def OrderReferences.toGoValue (c : OrderReferences) : GoValue :=
  .comp "OrderReferences"
    [("OrderReference", .slice false (c.OrderReference.map OrderReference.toGoValue))]

def OrderLineReference.toGoValue (r : OrderLineReference) : GoValue :=
  .comp "OrderLineReference" [("ref", .str r.Ref), ("LineID", .str r.LineID)]

def DeliveryNoteReference.toGoValue (r : DeliveryNoteReference) : GoValue :=
  .comp "DeliveryNoteReference"
    [("id", .str r.ID), ("ID", .str r.DeliveryNoteID),
     ("IssueDate", r.IssueDate.toGoValue), ("UUID", .str r.UUID)]

def DeliveryNoteReferences.toGoValue (c : DeliveryNoteReferences) : GoValue :=
  .comp "DeliveryNoteReferences"
    [("DeliveryNoteReference",
      .slice false (c.DeliveryNoteReference.map DeliveryNoteReference.toGoValue))]

def DeliveryNoteLineReference.toGoValue (r : DeliveryNoteLineReference) : GoValue :=
  .comp "DeliveryNoteLineReference" [("ref", .str r.Ref), ("LineID", .str r.LineID)]

def OriginalDocumentReference.toGoValue (r : OriginalDocumentReference) : GoValue :=
  .comp "OriginalDocumentReference"
    [("id", .str r.ID), ("ID", .str r.OriginalDocumentID),
     ("IssueDate", r.IssueDate.toGoValue), ("UUID", .str r.UUID)]

def OriginalDocumentReferences.toGoValue (c : OriginalDocumentReferences) : GoValue :=
  .comp "OriginalDocumentReferences"
    [("OriginalDocumentReference",
      .slice false (c.OriginalDocumentReference.map OriginalDocumentReference.toGoValue))]

def OriginalDocumentLineReference.toGoValue (r : OriginalDocumentLineReference) : GoValue :=
  .comp "OriginalDocumentLineReference" [("ref", .str r.Ref), ("LineID", .str r.LineID)]

def ContractReference.toGoValue (r : ContractReference) : GoValue :=
  .comp "ContractReference"
    [("id", .str r.ID), ("ID", .str r.ContractID), ("UUID", .str r.UUID),
     ("IssueDate", r.IssueDate.toGoValue),
     ("LastValidDate", r.LastValidDate.toGoValue),
     ("LastValidDateUnbounded", .bool r.LastValidDateUnbounded),
     ("ISDS_ID", .str r.ISDS_ID), ("FileReference", .str r.FileReference),
     ("ReferenceNumber", .str r.ReferenceNumber)]

def ContractReferences.toGoValue (c : ContractReferences) : GoValue :=
  .comp "ContractReferences"
    [("ContractReference",
      .slice false (c.ContractReference.map ContractReference.toGoValue))]

def ContractLineReference.toGoValue (r : ContractLineReference) : GoValue :=
  .comp "ContractLineReference" [("ref", .str r.Ref), ("ParagraphID", .str r.ParagraphID)]

def Country.toGoValue (c : Country) : GoValue :=
  .comp "Country" [("IdentificationCode", .str c.IdentificationCode), ("Name", .str c.Name)]

def PostalAddress.toGoValue (a : PostalAddress) : GoValue :=
  .comp "PostalAddress"
    [("StreetName", .str a.StreetName), ("BuildingNumber", .str a.BuildingNumber),
     ("CityName", .str a.CityName), ("PostalZone", .str a.PostalZone),
     ("Country", a.Country.toGoValue)]

def PartyName.toGoValue (p : PartyName) : GoValue :=
  .comp "PartyName" [("Name", .str p.Name)]

def PartyIdentification.toGoValue (p : PartyIdentification) : GoValue :=
  .comp "PartyIdentification"
    [("UserID", .str p.UserID),
     ("CatalogFirmIdentification", .str p.CatalogFirmIdentification),
     ("ID", .str p.ID)]

def PartyTaxScheme.toGoValue (p : PartyTaxScheme) : GoValue :=
  .comp "PartyTaxScheme" [("CompanyID", .str p.CompanyID), ("TaxScheme", .str p.TaxScheme)]

def RegisterIdentification.toGoValue (r : RegisterIdentification) : GoValue :=
  .comp "RegisterIdentification"
    [("Preformatted", .str r.Preformatted), ("RegisterKeptAt", .str r.RegisterKeptAt),
     ("RegisterFileRef", .str r.RegisterFileRef),
     ("RegisterDate", r.RegisterDate.toGoValue)]

def Contact.toGoValue (c : Contact) : GoValue :=
  .comp "Contact"
    [("Name", .str c.Name), ("Telephone", .str c.Telephone),
     ("ElectronicMail", .str c.ElectronicMail)]

def Party.toGoValue (p : Party) : GoValue :=
  .comp "Party"
    [("PartyIdentification", p.PartyIdentification.toGoValue),
     ("PartyName", p.PartyName.toGoValue),
     ("PostalAddress", p.PostalAddress.toGoValue),
     ("PartyTaxScheme", .slice false (p.PartyTaxScheme.map PartyTaxScheme.toGoValue)),
     ("RegisterIdentification", optPtr RegisterIdentification.toGoValue p.RegisterIdentification),
     ("Contact", optPtr Contact.toGoValue p.Contact)]

def AccountingSupplierParty.toGoValue (p : AccountingSupplierParty) : GoValue :=
  .comp "AccountingSupplierParty" [("Party", p.Party.toGoValue)]

def SellerSupplierParty.toGoValue (p : SellerSupplierParty) : GoValue :=
  .comp "SellerSupplierParty" [("Party", p.Party.toGoValue)]

def AccountingCustomerParty.toGoValue (p : AccountingCustomerParty) : GoValue :=
  .comp "AccountingCustomerParty" [("Party", p.Party.toGoValue)]

def BuyerCustomerParty.toGoValue (p : BuyerCustomerParty) : GoValue :=
  .comp "BuyerCustomerParty" [("Party", p.Party.toGoValue)]

def AnonymousCustomerParty.toGoValue (p : AnonymousCustomerParty) : GoValue :=
  .comp "AnonymousCustomerParty" [("ID", .str p.ID), ("IDScheme", .str p.IDScheme)]

def Delivery.toGoValue (d : Delivery) : GoValue :=
  .comp "Delivery" [("Party", d.Party.toGoValue)]

def Quantity.toGoValue (q : Quantity) : GoValue :=
  .comp "Quantity" [("", .str q.Value), ("unitCode", .str q.UnitCode)]

def LocalReverseCharge.toGoValue (l : LocalReverseCharge) : GoValue :=
  .comp "LocalReverseCharge"
    [("LocalReverseChargeCode", .str l.LocalReverseChargeCode),
     ("LocalReverseChargeQuantity", .str l.LocalReverseChargeQuantity)]

def ClassifiedTaxCategory.toGoValue (c : ClassifiedTaxCategory) : GoValue :=
  .comp "ClassifiedTaxCategory"
    [("Percent", .str c.Percent), ("VATCalculationMethod", .int c.VATCalculationMethod),
     ("VATApplicable", .bool c.VATApplicable),
     ("LocalReverseCharge", optPtr LocalReverseCharge.toGoValue c.LocalReverseCharge)]

def ItemIdentification.toGoValue (i : ItemIdentification) : GoValue :=
  .comp "ItemIdentification" [("ID", .str i.ID)]

def StoreBatch.toGoValue (b : StoreBatch) : GoValue :=
  .comp "StoreBatch"
    [("Name", .str b.Name), ("Note", .str b.Note),
     ("ExpirationDate", b.ExpirationDate.toGoValue),
     ("Specification", .str b.Specification),
     ("Quantity", b.Quantity.toGoValue),
     ("BatchOrSerialNumber", .str b.BatchOrSerialNumber),
     ("SealSeriesID", .str b.SealSeriesID)]

def StoreBatches.toGoValue (s : StoreBatches) : GoValue :=
  .comp "StoreBatches"
    [("StoreBatch", .slice false (s.StoreBatch.map StoreBatch.toGoValue))]

def Item.toGoValue (i : Item) : GoValue :=
  .comp "Item"
    [("Description", .str i.Description),
     ("CatalogueItemIdentification", optPtr ItemIdentification.toGoValue i.CatalogueItemIdentification),
     ("SellersItemIdentification", optPtr ItemIdentification.toGoValue i.SellersItemIdentification),
     ("SecondarySellersItemIdentification", optPtr ItemIdentification.toGoValue i.SecondarySellersItemIdentification),
     ("TertiarySellersItemIdentification", optPtr ItemIdentification.toGoValue i.TertiarySellersItemIdentification),
     ("BuyersItemIdentification", optPtr ItemIdentification.toGoValue i.BuyersItemIdentification),
     ("StoreBatches", optPtr StoreBatches.toGoValue i.StoreBatches)]

def InvoiceLine.toGoValue (l : InvoiceLine) : GoValue :=
  .comp "InvoiceLine"
    [("ID", .str l.ID),
     ("OrderReference", optPtr OrderLineReference.toGoValue l.OrderReference),
     ("DeliveryNoteReference", optPtr DeliveryNoteLineReference.toGoValue l.DeliveryNoteReference),
     ("OriginalDocumentReference", optPtr OriginalDocumentLineReference.toGoValue l.OriginalDocumentReference),
     ("ContractReference", optPtr ContractLineReference.toGoValue l.ContractReference),
     ("EgovClassifier", .str l.EgovClassifier),
     ("InvoicedQuantity", l.InvoicedQuantity.toGoValue),
     ("LineExtensionAmountCurr", .str l.LineExtensionAmountCurr),
     ("LineExtensionAmount", .str l.LineExtensionAmount),
     ("LineExtensionAmountBeforeDiscount", .str l.LineExtensionAmountBeforeDiscount),
     ("LineExtensionAmountTaxInclusiveCurr", .str l.LineExtensionAmountTaxInclusiveCurr),
     ("LineExtensionAmountTaxInclusive", .str l.LineExtensionAmountTaxInclusive),
     ("LineExtensionAmountTaxInclusiveBeforeDiscount", .str l.LineExtensionAmountTaxInclusiveBeforeDiscount),
     ("LineExtensionTaxAmount", .str l.LineExtensionTaxAmount),
     ("UnitPrice", .str l.UnitPrice),
     ("UnitPriceTaxInclusive", .str l.UnitPriceTaxInclusive),
     ("ClassifiedTaxCategory", l.ClassifiedTaxCategory.toGoValue),
     ("Note", .str l.Note),
     ("VATNote", .str l.VATNote),
     ("Item", l.Item.toGoValue),
     ("Extensions", optPtr Extensions.toGoValue l.Extensions)]

def InvoiceLines.toGoValue (ls : InvoiceLines) : GoValue :=
  .comp "InvoiceLines"
    [("InvoiceLine", .slice false (ls.InvoiceLine.map InvoiceLine.toGoValue))]

def TaxCategory.toGoValue (t : TaxCategory) : GoValue :=
  .comp "TaxCategory"
    [("Percent", .str t.Percent), ("TaxScheme", .str t.TaxScheme),
     ("VATApplicable", .bool t.VATApplicable),
     ("LocalReverseChargeFlag", .bool t.LocalReverseChargeFlag)]

def TaxSubTotal.toGoValue (s : TaxSubTotal) : GoValue :=
  .comp "TaxSubTotal"
    [("TaxableAmountCurr", .str s.TaxableAmountCurr),
     ("TaxableAmount", .str s.TaxableAmount),
     ("TaxAmountCurr", .str s.TaxAmountCurr),
     ("TaxAmount", .str s.TaxAmount),
     ("TaxInclusiveAmountCurr", .str s.TaxInclusiveAmountCurr),
     ("TaxInclusiveAmount", .str s.TaxInclusiveAmount),
     ("AlreadyClaimedTaxableAmountCurr", .str s.AlreadyClaimedTaxableAmountCurr),
     ("AlreadyClaimedTaxableAmount", .str s.AlreadyClaimedTaxableAmount),
     ("AlreadyClaimedTaxAmountCurr", .str s.AlreadyClaimedTaxAmountCurr),
     ("AlreadyClaimedTaxAmount", .str s.AlreadyClaimedTaxAmount),
     ("AlreadyClaimedTaxInclusiveAmountCurr", .str s.AlreadyClaimedTaxInclusiveAmountCurr),
     ("AlreadyClaimedTaxInclusiveAmount", .str s.AlreadyClaimedTaxInclusiveAmount),
     ("DifferenceTaxableAmountCurr", .str s.DifferenceTaxableAmountCurr),
     ("DifferenceTaxableAmount", .str s.DifferenceTaxableAmount),
     ("DifferenceTaxAmountCurr", .str s.DifferenceTaxAmountCurr),
     ("DifferenceTaxAmount", .str s.DifferenceTaxAmount),
     ("DifferenceTaxInclusiveAmountCurr", .str s.DifferenceTaxInclusiveAmountCurr),
     ("DifferenceTaxInclusiveAmount", .str s.DifferenceTaxInclusiveAmount),
     ("TaxCategory", s.TaxCategory.toGoValue)]

def TaxTotal.toGoValue (t : TaxTotal) : GoValue :=
  .comp "TaxTotal"
    [("TaxSubTotal", .slice false (t.TaxSubTotal.map TaxSubTotal.toGoValue)),
     ("TaxAmountCurr", .str t.TaxAmountCurr),
     ("TaxAmount", .str t.TaxAmount)]

def LegalMonetaryTotal.toGoValue (t : LegalMonetaryTotal) : GoValue :=
  .comp "LegalMonetaryTotal"
    [("TaxExclusiveAmount", .str t.TaxExclusiveAmount),
     ("TaxExclusiveAmountCurr", .str t.TaxExclusiveAmountCurr),
     ("TaxInclusiveAmount", .str t.TaxInclusiveAmount),
     ("TaxInclusiveAmountCurr", .str t.TaxInclusiveAmountCurr),
     ("AlreadyClaimedTaxExclusiveAmount", .str t.AlreadyClaimedTaxExclusiveAmount),
     ("AlreadyClaimedTaxExclusiveAmountCurr", .str t.AlreadyClaimedTaxExclusiveAmountCurr),
     ("AlreadyClaimedTaxInclusiveAmount", .str t.AlreadyClaimedTaxInclusiveAmount),
     ("AlreadyClaimedTaxInclusiveAmountCurr", .str t.AlreadyClaimedTaxInclusiveAmountCurr),
     ("DifferenceTaxExclusiveAmount", .str t.DifferenceTaxExclusiveAmount),
     ("DifferenceTaxExclusiveAmountCurr", .str t.DifferenceTaxExclusiveAmountCurr),
     ("DifferenceTaxInclusiveAmount", .str t.DifferenceTaxInclusiveAmount),
     ("DifferenceTaxInclusiveAmountCurr", .str t.DifferenceTaxInclusiveAmountCurr),
     ("PayableRoundingAmount", .str t.PayableRoundingAmount),
     ("PayableRoundingAmountCurr", .str t.PayableRoundingAmountCurr),
     ("PaidDepositsAmount", .str t.PaidDepositsAmount),
     ("PaidDepositsAmountCurr", .str t.PaidDepositsAmountCurr),
     ("PayableAmount", .str t.PayableAmount),
     ("PayableAmountCurr", .str t.PayableAmountCurr)]

def NonTaxedDeposit.toGoValue (d : NonTaxedDeposit) : GoValue :=
  .comp "NonTaxedDeposit"
    [("ID", .str d.ID), ("VariableSymbol", .str d.VariableSymbol),
     ("DepositAmountCurr", .str d.DepositAmountCurr),
     ("DepositAmount", .str d.DepositAmount)]

def NonTaxedDeposits.toGoValue (d : NonTaxedDeposits) : GoValue :=
  .comp "NonTaxedDeposits"
    [("NonTaxedDeposit", .slice false (d.NonTaxedDeposit.map NonTaxedDeposit.toGoValue))]

def TaxedDeposit.toGoValue (d : TaxedDeposit) : GoValue :=
  .comp "TaxedDeposit"
    [("ID", .str d.ID), ("VariableSymbol", .str d.VariableSymbol),
     ("TaxableDepositAmountCurr", .str d.TaxableDepositAmountCurr),
     ("TaxableDepositAmount", .str d.TaxableDepositAmount),
     ("TaxInclusiveDepositAmountCurr", .str d.TaxInclusiveDepositAmountCurr),
     ("TaxInclusiveDepositAmount", .str d.TaxInclusiveDepositAmount),
     ("ClassifiedTaxCategory", d.ClassifiedTaxCategory.toGoValue)]

def TaxedDeposits.toGoValue (d : TaxedDeposits) : GoValue :=
  .comp "TaxedDeposits"
    [("TaxedDeposit", .slice false (d.TaxedDeposit.map TaxedDeposit.toGoValue))]

def BankAccount.toGoValue (b : BankAccount) : GoValue :=
  .comp "BankAccount"
    [("ID", .str b.ID), ("BankCode", .str b.BankCode), ("Name", .str b.Name),
     ("IBAN", .str b.IBAN), ("BIC", .str b.BIC)]

def AlternateBankAccounts.toGoValue (a : AlternateBankAccounts) : GoValue :=
  .comp "AlternateBankAccounts"
    [("AlternateBankAccount", .slice false (a.AlternateBankAccount.map BankAccount.toGoValue))]

def PaymentDetails.toGoValue (p : PaymentDetails) : GoValue :=
  .comp "PaymentDetails"
    [("DocumentID", .str p.DocumentID), ("IssueDate", p.IssueDate.toGoValue),
     ("PaymentDueDate", p.PaymentDueDate.toGoValue),
     ("VariableSymbol", .str p.VariableSymbol),
     ("ConstantSymbol", .str p.ConstantSymbol),
     ("SpecificSymbol", .str p.SpecificSymbol),
     ("BankAccount", optPtr BankAccount.toGoValue p.BankAccount)]

def Payment.toGoValue (p : Payment) : GoValue :=
  .comp "Payment"
    [("PaidAmount", .str p.PaidAmount),
     ("PaymentMeansCode", .int p.PaymentMeansCode),
     ("Details", optPtr PaymentDetails.toGoValue p.Details)]

def PaymentMeans.toGoValue (p : PaymentMeans) : GoValue :=
  .comp "PaymentMeans"
    [("Payment", .slice false (p.Payment.map Payment.toGoValue)),
     ("AlternateBankAccounts", optPtr AlternateBankAccounts.toGoValue p.AlternateBankAccounts)]

def Supplement.toGoValue (s : Supplement) : GoValue :=
  .comp "Supplement"
    [("Filename", .str s.Filename), ("DigestMethod", .str s.DigestMethod),
     ("DigestValue", .str s.DigestValue), ("preview", .bool s.Preview)]

def SupplementsList.toGoValue (s : SupplementsList) : GoValue :=
  .comp "SupplementsList"
    [("Supplement", .slice false (s.Supplement.map Supplement.toGoValue))]

/-- Field list of the Invoice root as extractFields sees it: every tagged
field in declaration order under its element name.  The XMLName marker
carries the tag Invoice and an empty xml.Name value; version is the root
attribute. -/
def invoiceFields (inv : Invoice) : List (String × GoValue) :=
  [("Invoice", .comp "Name" []),
   ("version", .str inv.Version),
   ("DocumentType", .int inv.DocumentType),
   ("SubDocumentType", .str inv.SubDocumentType),
   ("SubDocumentTypeOrigin", .str inv.SubDocumentTypeOrigin),
   ("TargetConsolidator", .str inv.TargetConsolidator),
   ("ClientOnTargetConsolidator", .str inv.ClientOnTargetConsolidator),
   ("ClientBankAccount", .str inv.ClientBankAccount),
   ("ID", .str inv.ID),
   ("UUID", .str inv.UUID),
   ("EgovFlag", .bool inv.EgovFlag),
   ("ISDS_ID", .str inv.ISDS_ID),
   ("FileReference", .str inv.FileReference),
   ("ReferenceNumber", .str inv.ReferenceNumber),
   ("EgovClassifiers", optPtr EgovClassifiers.toGoValue inv.EgovClassifiers),
   ("IssuingSystem", .str inv.IssuingSystem),
   ("IssueDate", inv.IssueDate.toGoValue),
   ("TaxPointDate", inv.TaxPointDate.toGoValue),
   ("VATApplicable", .bool inv.VATApplicable),
   ("ElectronicPossibilityAgreementReference", inv.ElectronicPossibilityAgreementReference.toGoValue),
   ("Note", optPtr Note.toGoValue inv.Note),
   ("LocalCurrencyCode", .str inv.LocalCurrencyCode),
   ("ForeignCurrencyCode", .str inv.ForeignCurrencyCode),
   ("CurrRate", .str inv.CurrRate),
   ("RefCurrRate", .str inv.RefCurrRate),
   ("Extensions", optPtr Extensions.toGoValue inv.Extensions),
   ("AccountingSupplierParty", inv.AccountingSupplierParty.toGoValue),
   ("SellerSupplierParty", optPtr SellerSupplierParty.toGoValue inv.SellerSupplierParty),
   ("AnonymousCustomerParty", optPtr AnonymousCustomerParty.toGoValue inv.AnonymousCustomerParty),
   ("AccountingCustomerParty", optPtr AccountingCustomerParty.toGoValue inv.AccountingCustomerParty),
   ("BuyerCustomerParty", optPtr BuyerCustomerParty.toGoValue inv.BuyerCustomerParty),
   ("OrderReferences", optPtr OrderReferences.toGoValue inv.OrderReferences),
   ("DeliveryNoteReferences", optPtr DeliveryNoteReferences.toGoValue inv.DeliveryNoteReferences),
   ("OriginalDocumentReferences", optPtr OriginalDocumentReferences.toGoValue inv.OriginalDocumentReferences),
   ("ContractReferences", optPtr ContractReferences.toGoValue inv.ContractReferences),
   ("Delivery", optPtr Delivery.toGoValue inv.Delivery),
   ("InvoiceLines", inv.InvoiceLines.toGoValue),
   ("NonTaxedDeposits", optPtr NonTaxedDeposits.toGoValue inv.NonTaxedDeposits),
   ("TaxedDeposits", optPtr TaxedDeposits.toGoValue inv.TaxedDeposits),
   ("TaxTotal", inv.TaxTotal.toGoValue),
   ("LegalMonetaryTotal", inv.LegalMonetaryTotal.toGoValue),
   ("PaymentMeans", optPtr PaymentMeans.toGoValue inv.PaymentMeans),
   ("SupplementsList", optPtr SupplementsList.toGoValue inv.SupplementsList)]

/-- Mandated child order of the Invoice root.  Modelled from the spec: the
generated internal/ordering package is not among the provided sources; the
spec describes the Ordering Table as the schema-derived mapping from
composite type name to its mandated child-element order, and the schema
structs are declared in XSD order, so the entry is the child elements in
declaration order. -/
def invoiceSequence : List String :=
  ["DocumentType", "SubDocumentType", "SubDocumentTypeOrigin",
   "TargetConsolidator", "ClientOnTargetConsolidator", "ClientBankAccount",
   "ID", "UUID", "EgovFlag", "ISDS_ID", "FileReference", "ReferenceNumber",
   "EgovClassifiers", "IssuingSystem", "IssueDate", "TaxPointDate",
   "VATApplicable", "ElectronicPossibilityAgreementReference", "Note",
   "LocalCurrencyCode", "ForeignCurrencyCode", "CurrRate", "RefCurrRate",
   "Extensions", "AccountingSupplierParty", "SellerSupplierParty",
   "AnonymousCustomerParty", "AccountingCustomerParty", "BuyerCustomerParty",
   "OrderReferences", "DeliveryNoteReferences", "OriginalDocumentReferences",
   "ContractReferences", "Delivery", "InvoiceLines", "NonTaxedDeposits",
   "TaxedDeposits", "TaxTotal", "LegalMonetaryTotal", "PaymentMeans",
   "SupplementsList"]

/-- Ordering table instance used for round-trip reasoning.  Modelled from
the spec: only the entries a proof inspects are given (the Invoice root and
the InvoiceLines wrapper); every other type is left untabulated, and no
theorem looks at the children such a type emits. -/
def modelSequence : OrderingTable := fun t =>
  if t = "Invoice" then some invoiceSequence
  else if t = "InvoiceLines" then some ["InvoiceLine"]
  else none

/-- encodeInvoiceContent: emit the Invoice children following the ordering
entry of the root (a missing entry is the nil slice, so nothing is emitted)
over the extracted field map (Go: Encoder.encodeInvoiceContent). -/
def encodeInvoiceContent (seq : OrderingTable) (inv : Invoice) : List XmlNode :=
  ((seq "Invoice").getD []).flatMap fun en =>
    match fieldsLookup (invoiceFields inv) en with
    | some fv => encodeValue seq en fv
    | none => []

/-- Encode: the root Invoice element with its ordered children (Go:
Encoder.Encode and EncodeBytes; the namespace and version attributes and
the XML declaration are byte-level and outside the tree model). -/
def EncodeBytes (seq : OrderingTable) (inv : Invoice) : XmlNode :=
  .elem "Invoice" (encodeInvoiceContent seq inv)

/-! ## Re-decode accessors (the encoding/xml unmarshal view of the tree) -/

def childNamed (n : String) : XmlNode → Bool
  | .elem m _ => m == n
  | .text _ => false

/-- Character data of an element, as unmarshal collects it for a string
field: the concatenated text children, sub-elements skipped. -/
def textOf : XmlNode → String
  | .text s => s
  | .elem _ ch =>
      ch.foldl (fun acc c => match c with | .text s => acc ++ s | .elem _ _ => acc) ""

def childrenOf : XmlNode → List XmlNode
  | .elem _ ch => ch
  | .text _ => []

def elemsNamed (n : String) (nd : XmlNode) : List XmlNode :=
  (childrenOf nd).filter (childNamed n)

/-- Digits-only parse of a natural number. -/
def parseNatDigits (l : List Char) : Option Nat :=
  if l ≠ [] ∧ l.all Char.isDigit then some (natOfDigits l) else none

/-- Model of the strconv integer parse that encoding/xml applies to int
fields: an optional sign followed by decimal digits (64-bit overflow is not
modelled; re-decoded values come from fmt %d output and fit). -/
def parseGoInt (s : String) : Option Int :=
  match s.data with
  | [] => none
  | c :: rest =>
      if c = '-' then (parseNatDigits rest).map (fun n => -(n : Int))
      else if c = '+' then (parseNatDigits rest).map (fun n => (n : Int))
      else (parseNatDigits (c :: rest)).map (fun n => (n : Int))

/-- String field named n of the root, as unmarshal fills it: each matching
child element overwrites the field, so the last one wins; no match leaves
the zero value. -/
def redecodeStringField (n : String) (root : XmlNode) : String :=
  match (elemsNamed n root).getLast? with
  | some e => textOf e
  | none => ""

/-- Int field named n of the root under unmarshal. -/
def redecodeIntField (n : String) (root : XmlNode) : Option Int :=
  match (elemsNamed n root).getLast? with
  | some e => parseGoInt (textOf e)
  | none => some 0

/-- Date field named n of the root under unmarshal (Date.UnmarshalXML calls
ParseDate on the character data). -/
def redecodeDateField (n : String) (root : XmlNode) : Except String Date :=
  match (elemsNamed n root).getLast? with
  | some e => ParseDate (textOf e)
  | none => .ok Date.zero

/-- UUID field named n of the root under unmarshal (UUID.UnmarshalXML calls
NewUUID on the character data). -/
def redecodeUUIDField (n : String) (root : XmlNode) : Except String UUID :=
  match (elemsNamed n root).getLast? with
  | some e => NewUUID (textOf e)
  | none => .ok ""

/-- Number of invoice lines seen by unmarshal: every InvoiceLines child
funnels into the one InvoiceLines field, whose inner slice accumulates each
InvoiceLine child. -/
def redecodeLineCount (root : XmlNode) : Nat :=
  (((elemsNamed "InvoiceLines" root).flatMap childrenOf).filter
    (childNamed "InvoiceLine")).length

/-- Well-formedness of a decoded Date: the zero date, or a calendar date in
range with a four-digit year — exactly what ParseDate can produce. -/
def dateWF (d : Date) : Bool :=
  dateIsZero d ||
    (1 ≤ d.month && d.month ≤ 12 && 1 ≤ d.day &&
     d.day ≤ daysInMonth d.year d.month && d.year ≤ 9999)

/-- Well-formedness of a decoded UUID: empty or matching the canonical
layout — exactly what NewUUID can produce. -/
def uuidWF (u : UUID) : Bool :=
  u == "" || uuidPattern u

/-- Shape restriction under which the omission rule is stated: slices hold
struct elements and a pointer points at a non-pointer (and not directly at
a slice), as everywhere in the schema; outside this domain the Go encoder
falls into its reflection fallback. -/
def schemaShaped : GoValue → Bool
  | .slice _ elems =>
      elems.all fun e => match e with | .comp _ _ => true | _ => false
  | .ptr (some (.ptr _)) => false
  | .ptr (some (.slice _ _)) => false
  | _ => true

/-- Omission test of the claim: the value reached after the single pointer
dereference is zero (goZero of a nil pointer is true; of a non-nil pointer,
the zero test of the target). -/
def goZero (v : GoValue) : Bool :=
  match v with
  | .ptr none => true
  | .ptr (some w) => isZero w
  | w => isZero w


/-! ## Helper predicates used in claim statements -/

/-- Absence of original-document references: a nil collection or an empty
entry list. -/
def noOriginalDocRefs (inv : Invoice) : Bool :=
  match inv.OriginalDocumentReferences with
  | none => true
  | some r => r.OriginalDocumentReference.isEmpty

/-- Test that a decode path points into the header collection of one kind. -/
def pathHeaderKind (k : RefKind) : RefPath → Bool
  | .headerRef k2 _ => k2 == k
  | .lineRef _ _ => false

def errIsDuplicate : RefErr → Bool
  | .duplicateId _ => true
  | .unresolvedRef _ => false

/-! ## Concrete sample documents (used by witnesses and counterexamples) -/

def sampleParty : Party :=
  { PartyIdentification := ⟨"", "", "12345678"⟩
    PartyName := ⟨"Acme s.r.o."⟩
    PostalAddress := ⟨"Dlouha", "1", "Praha", "11000", ⟨"CZ", "Czechia"⟩⟩
    PartyTaxScheme := []
    RegisterIdentification := none
    Contact := none }

def sampleLine : InvoiceLine :=
  { ID := "1"
    OrderReference := none
    DeliveryNoteReference := none
    OriginalDocumentReference := none
    ContractReference := none
    EgovClassifier := ""
    InvoicedQuantity := ⟨"10", "KS"⟩
    LineExtensionAmountCurr := ""
    LineExtensionAmount := "100"
    LineExtensionAmountBeforeDiscount := ""
    LineExtensionAmountTaxInclusiveCurr := ""
    LineExtensionAmountTaxInclusive := "121"
    LineExtensionAmountTaxInclusiveBeforeDiscount := ""
    LineExtensionTaxAmount := "21"
    UnitPrice := "10"
    UnitPriceTaxInclusive := "12.1"
    ClassifiedTaxCategory := ⟨"21", 0, true, none⟩
    Note := ""
    VATNote := ""
    Item := ⟨"Widget", none, none, none, none, none, none⟩
    Extensions := none }

def sampleSubTotal : TaxSubTotal :=
  { TaxableAmountCurr := "", TaxableAmount := "100"
    TaxAmountCurr := "", TaxAmount := "21"
    TaxInclusiveAmountCurr := "", TaxInclusiveAmount := "121"
    AlreadyClaimedTaxableAmountCurr := "", AlreadyClaimedTaxableAmount := ""
    AlreadyClaimedTaxAmountCurr := "", AlreadyClaimedTaxAmount := ""
    AlreadyClaimedTaxInclusiveAmountCurr := "", AlreadyClaimedTaxInclusiveAmount := ""
    DifferenceTaxableAmountCurr := "", DifferenceTaxableAmount := ""
    DifferenceTaxAmountCurr := "", DifferenceTaxAmount := ""
    DifferenceTaxInclusiveAmountCurr := "", DifferenceTaxInclusiveAmount := ""
    TaxCategory := ⟨"21", "VAT", true, false⟩ }

def sampleTotals : LegalMonetaryTotal :=
  { TaxExclusiveAmount := "100", TaxExclusiveAmountCurr := ""
    TaxInclusiveAmount := "121", TaxInclusiveAmountCurr := ""
    AlreadyClaimedTaxExclusiveAmount := "", AlreadyClaimedTaxExclusiveAmountCurr := ""
    AlreadyClaimedTaxInclusiveAmount := "", AlreadyClaimedTaxInclusiveAmountCurr := ""
    DifferenceTaxExclusiveAmount := "", DifferenceTaxExclusiveAmountCurr := ""
    DifferenceTaxInclusiveAmount := "", DifferenceTaxInclusiveAmountCurr := ""
    PayableRoundingAmount := "", PayableRoundingAmountCurr := ""
    PaidDepositsAmount := "", PaidDepositsAmountCurr := ""
    PayableAmount := "121", PayableAmountCurr := "" }

def sampleInvoice : Invoice :=
  { Version := "6.0.2"
    DocumentType := 1
    SubDocumentType := "", SubDocumentTypeOrigin := ""
    TargetConsolidator := "", ClientOnTargetConsolidator := "", ClientBankAccount := ""
    ID := "FV-2025-001"
    UUID := "12345678-1234-1234-1234-123456789012"
    EgovFlag := false
    ISDS_ID := "", FileReference := "", ReferenceNumber := ""
    EgovClassifiers := none
    IssuingSystem := ""
    IssueDate := ⟨2025, 1, 20⟩
    TaxPointDate := Date.zero
    VATApplicable := true
    ElectronicPossibilityAgreementReference := ⟨"", ""⟩
    Note := none
    LocalCurrencyCode := "CZK"
    ForeignCurrencyCode := ""
    CurrRate := "1"
    RefCurrRate := "1"
    Extensions := none
    AccountingSupplierParty := ⟨sampleParty⟩
    SellerSupplierParty := none
    AnonymousCustomerParty := none
    AccountingCustomerParty := some ⟨sampleParty⟩
    BuyerCustomerParty := none
    OrderReferences := none
    DeliveryNoteReferences := none
    OriginalDocumentReferences := none
    ContractReferences := none
    Delivery := none
    InvoiceLines := ⟨[sampleLine]⟩
    NonTaxedDeposits := none
    TaxedDeposits := none
    TaxTotal := ⟨[sampleSubTotal], "", "21"⟩
    LegalMonetaryTotal := sampleTotals
    PaymentMeans := none
    SupplementsList := none }

/-- Invoice with one line of invoiced quantity 10 carrying two store batches
of quantities 5 and 4 (batch sum 9, off by 1). -/
def batchInvoice : Invoice :=
  { sampleInvoice with
    InvoiceLines := ⟨[{ sampleLine with
      Item := { sampleLine.Item with
        StoreBatches := some ⟨[
          ⟨"B1", "", Date.zero, "", ⟨"5", "KS"⟩, "B", ""⟩,
          ⟨"B2", "", Date.zero, "", ⟨"4", "KS"⟩, "B", ""⟩]⟩ } }]⟩ }

/-- Options that configure a quantity-sum tolerance of 2. -/
def tolerantOpts : ValidateOptions :=
  ⟨false, true, "2"⟩

/-- Invoice with one declared order reference, a duplicated pair of delivery
note reference identifiers, and a line whose order back-reference token
resolves to nothing. -/
def refInvoice : Invoice :=
  { sampleInvoice with
    OrderReferences := some ⟨[⟨"ord1", "SO-1", "", Date.zero, Date.zero, "", "", "", ""⟩]⟩
    DeliveryNoteReferences := some ⟨[
      ⟨"dn1", "DN-1", Date.zero, ""⟩,
      ⟨"dn1", "DN-2", Date.zero, ""⟩]⟩
    InvoiceLines := ⟨[{ sampleLine with OrderReference := some ⟨"ord9", ""⟩ }]⟩ }


/-- Tiny ordering table for exercising the encoder: one tabulated type T
whose entry lists only the child A. -/
def tinySequence : OrderingTable := fun t =>
  if t = "T" then some ["A"] else none

/-- Fields of a sample composite with a populated field B that the T entry
does not list. -/
def tinyFields : List (String × GoValue) :=
  [("A", .str "x"), ("B", .str "y")]


/-! ## Theorems -/

/-! ## Claims about the scalar layer -/

/-- C7: the scalar constructors reject exactly the listed inputs and accept
the unset sentinels: NewDecimal rejects the empty string, a comma decimal
and a double minus; ParseDate rejects a one-digit month and slash
separators; ParseBool rejects 1 and True; NewUUID rejects a non-UUID; while
ParseDate, ParseBool and NewUUID each accept the empty string and report
the unset value. -/
theorem c7_scalar_rejection_set :
    exceptOk (NewDecimal "") = false ∧
    exceptOk (NewDecimal "12,34") = false ∧
    exceptOk (NewDecimal "--1") = false ∧
    exceptOk (ParseDate "2024-1-15") = false ∧
    exceptOk (ParseDate "2024/01/15") = false ∧
    exceptOk (ParseBool "1") = false ∧
    exceptOk (ParseBool "True") = false ∧
    exceptOk (NewUUID "not-a-uuid") = false ∧
    ParseDate "" = .ok Date.zero ∧
    ParseBool "" = .ok false ∧
    NewUUID "" = .ok "" := by
  decide

/-- C8: Decimal equality is by numeric value while the stored text is kept
verbatim: decimalEqual accepts 1.0 versus 1, yet decimalString returns the
two different stored forms. -/
theorem c8_decimal_equality_by_value :
    decimalEqual "1.0" "1" = true ∧
    decimalString "1.0" = "1.0" ∧
    decimalString "1" = "1" ∧
    decimalString "1.0" ≠ decimalString "1" := by
  decide

/-- C1: the claim states that the store-batch quantity-sum check reports a
TotalMismatch exactly when the batch sum differs from the invoiced quantity
by more than the Tolerance configured in ValidateOptions.  The code instead
compares against a fixed local threshold of 0.0001 and never consults the
option (whose own documentation calls it the maximum allowed difference for
total mismatches): with a configured tolerance of 2 and a difference of 1,
the check still emits TOTAL_MISMATCH. -/
theorem c1_store_batch_ignores_configured_tolerance :
    (∃ e ∈ validateStoreBatches batchInvoice tolerantOpts,
        e.Field = "Invoice.InvoiceLines.InvoiceLine[0].Item.StoreBatches" ∧
        e.Code = ErrCodeTotalMismatch) ∧
    Frac.ltb ((((decimalFloat64 "5").add (decimalFloat64 "4")).sub
        (decimalFloat64 "10")).absVal) (decimalFloat64 tolerantOpts.Tolerance) = true := by
  decide

/-- C2: DecodeBytes yields no Invoice exactly when the XML unmarshal pass
fails, and a successful unmarshal always yields the populated Invoice
together with the reference-resolution diagnostics — reference resolution
never aborts decoding. -/
theorem c2_decode_returns_document_iff_unmarshal_succeeds
    (u : Except String Invoice) :
    exceptOk (DecodeBytes u) = exceptOk u ∧
    (∀ inv, u = .ok inv → DecodeBytes u = .ok (inv, resolveReferences inv)) := by
  constructor
  · cases u <;> rfl
  · intro inv h
    subst h
    rfl

/-- Witness for C2 at concrete inputs: a successful unmarshal of the sample
invoice decodes to the invoice with its reference diagnostics, and a failed
unmarshal decodes to nothing. -/
theorem c2_decode_returns_document_iff_unmarshal_succeeds_witness :
    DecodeBytes (.ok refInvoice) = .ok (refInvoice, resolveReferences refInvoice) ∧
    exceptOk (DecodeBytes (.error "truncated input")) = false :=
  ⟨(c2_decode_returns_document_iff_unmarshal_succeeds (.ok refInvoice)).2 refInvoice rfl,
   (c2_decode_returns_document_iff_unmarshal_succeeds (.error "truncated input")).1⟩

/-- C5: an Invoice of document type 2, 3 or 6 with no original-document
reference always receives an Error-severity RequiredField diagnostic on
Invoice.OriginalDocumentReferences, under every options value; for document
type 1 the rule emits nothing, whether or not references are present. -/
theorem c5_document_type_rule (inv : Invoice) (opts : ValidateOptions) :
    ((inv.DocumentType = 2 ∨ inv.DocumentType = 3 ∨ inv.DocumentType = 6) →
      noOriginalDocRefs inv = true →
      ∃ e ∈ ValidateInvoiceWithOptions inv opts,
        e.Field = "Invoice.OriginalDocumentReferences" ∧
        e.Code = ErrCodeRequiredField ∧ e.Severity = .error) ∧
    (inv.DocumentType = 1 → validateOriginalDocumentLink inv opts = []) := by
  constructor
  · intro hdt hrefs
    have hmem : (⟨"Invoice.OriginalDocumentReferences", ErrCodeRequiredField,
        Severity.error⟩ : ValidationError) ∈ validateOriginalDocumentLink inv opts := by
      unfold validateOriginalDocumentLink
      rw [if_pos hdt]
      unfold noOriginalDocRefs at hrefs
      cases h : inv.OriginalDocumentReferences with
      | none => simp
      | some refs =>
          rw [h] at hrefs
          simp only [List.isEmpty_iff] at hrefs
          simp [hrefs]
    have hmem2 : (⟨"Invoice.OriginalDocumentReferences", ErrCodeRequiredField,
        Severity.error⟩ : ValidationError) ∈ ValidateInvoiceWithOptions inv opts := by
      unfold ValidateInvoiceWithOptions validateSemantic
      simp only [List.mem_append]
      exact Or.inr (Or.inl (Or.inl (Or.inl (Or.inl hmem))))
    exact ⟨_, hmem2, rfl, rfl, rfl⟩
  · intro hdt
    unfold validateOriginalDocumentLink
    rw [if_neg]
    rw [hdt]
    push_neg
    refine ⟨by norm_num, by norm_num, by norm_num⟩

/-- Witness for C5: document type 2 with no references yields the error
diagnostic, and the sample type-1 invoice triggers nothing from the rule. -/
theorem c5_document_type_rule_witness :
    (∃ e ∈ ValidateInvoiceWithOptions { sampleInvoice with DocumentType := 2 }
        DefaultValidateOptions,
      e.Field = "Invoice.OriginalDocumentReferences" ∧
      e.Code = ErrCodeRequiredField ∧ e.Severity = .error) ∧
    validateOriginalDocumentLink sampleInvoice DefaultValidateOptions = [] :=
  ⟨(c5_document_type_rule { sampleInvoice with DocumentType := 2 }
      DefaultValidateOptions).1 (Or.inl rfl) (by decide),
   (c5_document_type_rule sampleInvoice DefaultValidateOptions).2 rfl⟩

/-- C6: with a foreign currency code set, a numerically non-zero
tax-exclusive total and an empty foreign tax-exclusive total, validation
yields a RequiredField diagnostic on that field — Warning under default
options, Error whenever the strict option is set. -/
theorem c6_currency_pairing (inv : Invoice) :
    inv.ForeignCurrencyCode ≠ "" →
    (decimalFloat64 inv.LegalMonetaryTotal.TaxExclusiveAmount).num ≠ 0 →
    inv.LegalMonetaryTotal.TaxExclusiveAmountCurr = "" →
    ((∃ e ∈ ValidateInvoiceWithOptions inv DefaultValidateOptions,
        e.Field = "Invoice.LegalMonetaryTotal.TaxExclusiveAmountCurr" ∧
        e.Code = ErrCodeRequiredField ∧ e.Severity = .warning) ∧
     (∀ opts : ValidateOptions, opts.Strict = true →
        ∃ e ∈ ValidateInvoiceWithOptions inv opts,
          e.Field = "Invoice.LegalMonetaryTotal.TaxExclusiveAmountCurr" ∧
          e.Code = ErrCodeRequiredField ∧ e.Severity = .error)) := by
  intro h1 h2 h3
  have hbase : ¬ (decimalIsZero inv.LegalMonetaryTotal.TaxExclusiveAmount = true) := by
    intro hd
    simp only [decimalIsZero, beq_iff_eq] at hd
    rw [hd] at h2
    exact h2 rfl
  have hcurr : decimalIsZero inv.LegalMonetaryTotal.TaxExclusiveAmountCurr = true := by
    simp [decimalIsZero, h3]
  have key : ∀ opts : ValidateOptions,
      (⟨"Invoice.LegalMonetaryTotal.TaxExclusiveAmountCurr", ErrCodeRequiredField,
        if opts.Strict then Severity.error else Severity.warning⟩ : ValidationError) ∈
        ValidateInvoiceWithOptions inv opts := by
    intro opts
    have hreq : (⟨"Invoice.LegalMonetaryTotal.TaxExclusiveAmountCurr",
        ErrCodeRequiredField,
        if opts.Strict then Severity.error else Severity.warning⟩ : ValidationError) ∈
        validateForeignCurrencyFieldsPresent inv opts := by
      unfold validateForeignCurrencyFieldsPresent
      simp only [List.mem_append]
      repeat' apply Or.inl
      unfold reqCurr
      rw [if_pos ⟨hbase, hcurr⟩]
      exact List.mem_singleton.mpr rfl
    have hcc : (⟨"Invoice.LegalMonetaryTotal.TaxExclusiveAmountCurr",
        ErrCodeRequiredField,
        if opts.Strict then Severity.error else Severity.warning⟩ : ValidationError) ∈
        validateCurrencyConsistency inv opts := by
      unfold validateCurrencyConsistency
      rw [if_pos h1]
      simp only [List.mem_append]
      exact Or.inr hreq
    unfold ValidateInvoiceWithOptions validateSemantic
    simp only [List.mem_append]
    exact Or.inr (Or.inl (Or.inl (Or.inl (Or.inr hcc))))
  constructor
  · exact ⟨_, key DefaultValidateOptions, rfl, rfl, rfl⟩
  · intro opts hstrict
    refine ⟨_, key opts, rfl, rfl, ?_⟩
    rw [hstrict]
    rfl

/-- Witness for C6: the sample invoice with a EUR foreign currency code set
has a populated tax-exclusive total of 100 and an empty foreign companion,
and receives the diagnostic in both modes. -/
theorem c6_currency_pairing_witness :
    (∃ e ∈ ValidateInvoiceWithOptions { sampleInvoice with ForeignCurrencyCode := "EUR" }
        DefaultValidateOptions,
      e.Field = "Invoice.LegalMonetaryTotal.TaxExclusiveAmountCurr" ∧
      e.Code = ErrCodeRequiredField ∧ e.Severity = .warning) ∧
    (∃ e ∈ ValidateInvoiceWithOptions { sampleInvoice with ForeignCurrencyCode := "EUR" }
        ⟨true, true, "0.01"⟩,
      e.Field = "Invoice.LegalMonetaryTotal.TaxExclusiveAmountCurr" ∧
      e.Code = ErrCodeRequiredField ∧ e.Severity = .error) :=
  ⟨(c6_currency_pairing { sampleInvoice with ForeignCurrencyCode := "EUR" }
      (by decide) (by decide) (by decide)).1,
   (c6_currency_pairing { sampleInvoice with ForeignCurrencyCode := "EUR" }
      (by decide) (by decide) (by decide)).2 ⟨true, true, "0.01"⟩ rfl⟩

/-- Counting over a flatMap splits into the per-element counts. -/
theorem countP_flatMap {α β : Type} (l : List α) (f : α → List β) (P : β → Bool) :
    (l.flatMap f).countP P = (l.map fun x => (f x).countP P).sum := by
  induction l with
  | nil => rfl
  | cons hd tl ih =>
      simp only [List.flatMap_cons, List.countP_append, List.map_cons, List.sum_cons, ih]

/-- Every error produced by the header-collection fold beyond the
accumulator is a duplicate-identifier error on a header path of the given
kind. -/
theorem headerFold_shape (kind : RefKind) :
    ∀ (l : List (Nat × String)) (acc : List DecodeError × List String)
      (e : DecodeError), e ∈ (l.foldl (headerIdStep kind) acc).1 →
      e ∈ acc.1 ∨ ∃ j s, e = ⟨.headerRef kind j, .duplicateId s⟩ := by
  intro l
  induction l with
  | nil => intro acc e he; exact Or.inl he
  | cons p tl ih =>
      intro acc e he
      rcases ih (headerIdStep kind acc p) e he with hacc | hshape
      · unfold headerIdStep at hacc
        split at hacc
        · simp only [List.mem_append] at hacc
          rcases hacc with h1 | h2
          · exact Or.inl h1
          · split at h2
            · simp only [List.mem_singleton] at h2
              exact Or.inr ⟨p.1, p.2, h2⟩
            · simp at h2
        · exact Or.inl hacc
      · exact Or.inr hshape

/-- Every identifier the header-collection fold has seen came from the
accumulator or from the walked list. -/
theorem headerFold_seen (kind : RefKind) :
    ∀ (l : List (Nat × String)) (acc : List DecodeError × List String)
      (x : String), x ∈ (l.foldl (headerIdStep kind) acc).2 →
      x ∈ acc.2 ∨ ∃ j, (j, x) ∈ l := by
  intro l
  induction l with
  | nil => intro acc x hx; exact Or.inl hx
  | cons p tl ih =>
      intro acc x hx
      rcases ih (headerIdStep kind acc p) x hx with hacc | ⟨j, hj⟩
      · unfold headerIdStep at hacc
        split at hacc
        · split at hacc
          · exact Or.elim (Or.inl hacc) Or.inl Or.inr
          · simp only [List.mem_append, List.mem_singleton] at hacc
            rcases hacc with h1 | h2
            · exact Or.inl h1
            · exact Or.inr ⟨p.1, by rw [h2]; exact List.mem_cons_self p tl⟩
        · exact Or.inl hacc
      · exact Or.inr ⟨j, List.mem_cons_of_mem p hj⟩

/-- Identifiers seen by collectHeaderIds are declared identifiers. -/
theorem collectHeaderIds_seen_subset (kind : RefKind) (ids : List String)
    (x : String) (hx : x ∈ (collectHeaderIds kind ids).2) : x ∈ ids := by
  rcases headerFold_seen kind ids.enum ([], []) x hx with h | ⟨j, hj⟩
  · simp at h
  · obtain ⟨h1, h2, h3⟩ := List.mem_enumFrom hj
    rw [h3]
    exact List.getElem_mem _

/-- Shape of the errors a line-reference check can produce. -/
theorem checkLineRef_shape (kind : RefKind) (i : Nat) (r : Option String)
    (ids : List String) (e : DecodeError) (he : e ∈ checkLineRef kind i r ids) :
    e.Path = .lineRef i kind ∧ ∃ s, r = some s ∧ e.Err = .unresolvedRef s := by
  cases r with
  | none => simp [checkLineRef] at he
  | some s =>
      simp only [checkLineRef] at he
      by_cases hc : s ≠ "" ∧ s ∉ ids
      · rw [if_pos hc] at he
        simp only [List.mem_singleton] at he
        subst he
        exact ⟨rfl, s, rfl, rfl⟩
      · rw [if_neg hc] at he
        exact absurd he (List.not_mem_nil e)

/-- Counting over the flatMap of an enumerated list in which only the
entry at one index can contribute. -/
theorem countP_enumFrom_single {α β : Type} (P : β → Bool) :
    ∀ (l : List α) (f : Nat × α → List β) (n i : Nat) (x : α),
      l[i]? = some x →
      (∀ j y, (j, y) ∈ l.enumFrom n → j ≠ n + i → (f (j, y)).countP P = 0) →
      ((l.enumFrom n).flatMap f).countP P = (f (n + i, x)).countP P := by
  intro l
  induction l with
  | nil => intro f n i x hx; simp at hx
  | cons hd tl ih =>
      intro f n i x hx hzero
      rw [List.enumFrom_cons, List.flatMap_cons, List.countP_append]
      cases i with
      | zero =>
          simp only [List.getElem?_cons_zero, Option.some.injEq] at hx
          subst hx
          have hrest : ((tl.enumFrom (n + 1)).flatMap f).countP P = 0 := by
            rw [countP_flatMap]
            apply List.sum_eq_zero
            intro c hc
            simp only [List.mem_map] at hc
            obtain ⟨⟨j, y⟩, hm, rfl⟩ := hc
            have hge := (List.mem_enumFrom hm).1
            exact hzero j y (List.mem_cons_of_mem _ hm) (by omega)
          rw [hrest, Nat.add_zero, Nat.add_zero]
      | succ i2 =>
          simp only [List.getElem?_cons_succ] at hx
          have hhd : (f (n, hd)).countP P = 0 :=
            hzero n hd (List.mem_cons_self _ _) (by omega)
          rw [hhd]
          have := ih f (n + 1) i2 x hx (fun j y hm hne =>
            hzero j y (List.mem_cons_of_mem _ hm) (by omega))
          rw [this]
          have harg : n + 1 + i2 = n + (i2 + 1) := by omega
          rw [harg]
          omega

/-- An enumerated entry recovers the list element at its index. -/
theorem enumFrom_index {α : Type} :
    ∀ (l : List α) (n j : Nat) (y : α), (j, y) ∈ l.enumFrom n →
      l[j - n]? = some y := by
  intro l
  induction l with
  | nil => intro n j y h; simp at h
  | cons hd tl ih =>
      intro n j y h
      rw [List.enumFrom_cons] at h
      rcases List.mem_cons.mp h with h1 | h2
      · simp only [Prod.mk.injEq] at h1
        obtain ⟨rfl, rfl⟩ := h1
        simp
      · have hge := (List.mem_enumFrom h2).1
        have := ih (n + 1) j y h2
        have harith : j - n = (j - (n + 1)) + 1 := by omega
        rw [harith]
        simpa using this

/-- Counting over the four reference kinds reduces to the one kind that can
contribute. -/
theorem countP_kinds_single (kind : RefKind) (g : RefKind → List DecodeError)
    (P : DecodeError → Bool)
    (h : ∀ k, k ≠ kind → (g k).countP P = 0) :
    (allRefKinds.flatMap g).countP P = (g kind).countP P := by
  simp only [allRefKinds, List.flatMap_cons, List.flatMap_nil, List.append_nil,
    List.countP_append]
  cases kind with
  | order =>
      rw [h .deliveryNote (by decide), h .originalDocument (by decide),
        h .contract (by decide)]
      omega
  | deliveryNote =>
      rw [h .order (by decide), h .originalDocument (by decide),
        h .contract (by decide)]
      omega
  | originalDocument =>
      rw [h .order (by decide), h .deliveryNote (by decide),
        h .contract (by decide)]
      omega
  | contract =>
      rw [h .order (by decide), h .deliveryNote (by decide),
        h .originalDocument (by decide)]
      omega

/-- Unfolding of List.enum as an enumeration from zero. -/
theorem enum_eq_enumFrom {α : Type} (l : List α) : l.enum = l.enumFrom 0 := rfl

/-- C4: a line whose present, non-empty back-reference token matches no
declared identifier of the corresponding header collection yields exactly
one unresolved-reference diagnostic, whose path names that line; and a
collection holding exactly two entries that share one non-empty identifier
yields exactly one duplicate-identifier diagnostic for that collection. -/
theorem c4_reference_integrity :
    (∀ (inv : Invoice) (i : Nat) (line : InvoiceLine) (kind : RefKind) (r : String),
      inv.InvoiceLines.InvoiceLine[i]? = some line →
      lineRefOf line kind = some r →
      r ≠ "" →
      r ∉ entryIds inv kind →
      (resolveReferences inv).countP
          (fun e => e.Path == RefPath.lineRef i kind) = 1 ∧
      ∀ e ∈ resolveReferences inv, e.Path = RefPath.lineRef i kind →
        e.Err = .unresolvedRef r) ∧
    (∀ (inv : Invoice) (kind : RefKind) (s : String),
      entryIds inv kind = [s, s] →
      s ≠ "" →
      (resolveReferences inv).countP
        (fun e => pathHeaderKind kind e.Path && errIsDuplicate e.Err) = 1) := by
  constructor
  · intro inv i line kind r hline href hne hnotin
    constructor
    · unfold resolveReferences
      rw [List.countP_append, enum_eq_enumFrom]
      have hH : (allRefKinds.flatMap fun k =>
          (collectHeaderIds k (entryIds inv k)).1).countP
            (fun e => e.Path == RefPath.lineRef i kind) = 0 := by
        apply List.countP_eq_zero.mpr
        intro e he
        obtain ⟨k, _, hmem⟩ := List.mem_flatMap.mp he
        rcases headerFold_shape k (entryIds inv k).enum ([], []) e hmem with h0 | ⟨j, s2, rfl⟩
        · simp at h0
        · simp
      rw [hH]
      have hL : (((inv.InvoiceLines.InvoiceLine.enumFrom 0).flatMap fun p =>
          allRefKinds.flatMap fun k =>
            checkLineRef k p.1 (lineRefOf p.2 k)
              (collectHeaderIds k (entryIds inv k)).2).countP
            (fun e => e.Path == RefPath.lineRef i kind)) = 1 := by
        have hstep := countP_enumFrom_single
          (fun e => e.Path == RefPath.lineRef i kind)
          inv.InvoiceLines.InvoiceLine
          (fun p => allRefKinds.flatMap fun k =>
            checkLineRef k p.1 (lineRefOf p.2 k)
              (collectHeaderIds k (entryIds inv k)).2)
          0 i line hline ?_
        · rw [hstep]
          rw [Nat.zero_add]
          have hk := countP_kinds_single kind
            (fun k => checkLineRef k i (lineRefOf line k)
              (collectHeaderIds k (entryIds inv k)).2)
            (fun e => e.Path == RefPath.lineRef i kind) ?_
          · rw [hk]
            rw [href]
            have hnotseen : r ∉ (collectHeaderIds kind (entryIds inv kind)).2 := by
              intro hmem
              exact hnotin (collectHeaderIds_seen_subset kind _ r hmem)
            simp only [checkLineRef]
            rw [if_pos ⟨hne, hnotseen⟩]
            simp
          · intro k hk2
            apply List.countP_eq_zero.mpr
            intro e he
            obtain ⟨hp, _, _, _⟩ := checkLineRef_shape k i (lineRefOf line k)
              (collectHeaderIds k (entryIds inv k)).2 e he
            simp only [hp, beq_iff_eq]
            intro hcontra
            exact hk2 (RefPath.lineRef.inj hcontra).2
        · intro j y hm hne2
          apply List.countP_eq_zero.mpr
          intro e he
          obtain ⟨k, _, hck⟩ := List.mem_flatMap.mp he
          obtain ⟨hp, _, _, _⟩ := checkLineRef_shape k j (lineRefOf y k)
            (collectHeaderIds k (entryIds inv k)).2 e hck
          simp only [hp, beq_iff_eq]
          intro hcontra
          have hji := (RefPath.lineRef.inj hcontra).1
          exact hne2 (by omega)
      rw [hL]
    · intro e he hpath
      unfold resolveReferences at he
      rw [List.mem_append] at he
      rcases he with heH | heL
      · obtain ⟨k, _, hmem⟩ := List.mem_flatMap.mp heH
        rcases headerFold_shape k (entryIds inv k).enum ([], []) e hmem with h0 | ⟨j, s2, rfl⟩
        · simp at h0
        · simp at hpath
      · obtain ⟨⟨j, y⟩, hmenum, hin⟩ := List.mem_flatMap.mp heL
        obtain ⟨k2, _, hck⟩ := List.mem_flatMap.mp hin
        obtain ⟨hp, s2, hs2, herr⟩ := checkLineRef_shape k2 j (lineRefOf y k2)
          (collectHeaderIds k2 (entryIds inv k2)).2 e hck
        rw [hp] at hpath
        obtain ⟨rfl, rfl⟩ := RefPath.lineRef.inj hpath
        have hidx := enumFrom_index inv.InvoiceLines.InvoiceLine 0 j y hmenum
        rw [Nat.sub_zero] at hidx
        rw [hline] at hidx
        have hy : y = line := (Option.some.inj hidx).symm
        rw [hy] at hs2
        rw [href] at hs2
        have hs2r : s2 = r := (Option.some.inj hs2).symm
        rw [herr, hs2r]
  · intro inv kind s hids hs
    unfold resolveReferences
    rw [List.countP_append]
    have hL : ((inv.InvoiceLines.InvoiceLine.enum.flatMap fun p =>
        allRefKinds.flatMap fun k =>
          checkLineRef k p.1 (lineRefOf p.2 k)
            (collectHeaderIds k (entryIds inv k)).2).countP
          (fun e => pathHeaderKind kind e.Path && errIsDuplicate e.Err)) = 0 := by
      apply List.countP_eq_zero.mpr
      intro e he
      obtain ⟨p, _, hin⟩ := List.mem_flatMap.mp he
      obtain ⟨k2, _, hck⟩ := List.mem_flatMap.mp hin
      obtain ⟨hp, _, _, _⟩ := checkLineRef_shape k2 p.1 (lineRefOf p.2 k2)
        (collectHeaderIds k2 (entryIds inv k2)).2 e hck
      simp [hp, pathHeaderKind]
    rw [hL]
    have hH := countP_kinds_single kind
      (fun k => (collectHeaderIds k (entryIds inv k)).1)
      (fun e => pathHeaderKind kind e.Path && errIsDuplicate e.Err) ?_
    · rw [hH]
      rw [hids]
      unfold collectHeaderIds
      rw [show (([s, s] : List String)).enum = [(0, s), (1, s)] from rfl]
      rw [List.foldl_cons, List.foldl_cons, List.foldl_nil]
      unfold headerIdStep
      simp only [ne_eq, hs, not_false_eq_true, if_true, List.not_mem_nil, if_false,
        List.append_nil, List.mem_singleton, if_pos rfl]
      simp [pathHeaderKind, errIsDuplicate]
    · intro k hk2
      apply List.countP_eq_zero.mpr
      intro e he
      rcases headerFold_shape k (entryIds inv k).enum ([], []) e he with h0 | ⟨j, s2, rfl⟩
      · simp at h0
      · simp only [pathHeaderKind, errIsDuplicate, Bool.and_eq_true, beq_iff_eq]
        intro hcontra
        exact hk2 hcontra.1

/-- Witness for C4: in the sample reference invoice, line 0 carries the
unresolvable order token ord9 and yields exactly one unresolved diagnostic
at that line, and the duplicated delivery-note identifier dn1 yields exactly
one duplicate diagnostic for that collection. -/
theorem c4_reference_integrity_witness :
    ((resolveReferences refInvoice).countP
        (fun e => e.Path == RefPath.lineRef 0 .order) = 1 ∧
     ∀ e ∈ resolveReferences refInvoice, e.Path = RefPath.lineRef 0 .order →
       e.Err = .unresolvedRef "ord9") ∧
    (resolveReferences refInvoice).countP
      (fun e => pathHeaderKind .deliveryNote e.Path && errIsDuplicate e.Err) = 1 :=
  ⟨c4_reference_integrity.1 refInvoice 0
      { sampleLine with OrderReference := some ⟨"ord9", ""⟩ } .order "ord9"
      (by decide) (by decide) (by decide) (by decide),
   c4_reference_integrity.2 refInvoice .deliveryNote "dn1" (by decide) (by decide)⟩

/-- De-attached flatMap over an attached list. -/
theorem attach_flatMap {α β : Type} (l : List α) (g : α → List β) :
    l.attach.flatMap (fun x => g x.1) = l.flatMap g := by
  conv_rhs => rw [← List.attach_map_subtype_val l]
  rw [List.flatMap_map]

/-- Equation: encoding a nil pointer emits nothing. -/
theorem encodeValue_ptr_none (seq : OrderingTable) (name : String) :
    encodeValue seq name (.ptr none) = [] := by
  simp [encodeValue]

/-- Equation: encoding a non-nil pointer encodes the dereferenced value. -/
theorem encodeValue_ptr_some (seq : OrderingTable) (name : String) (w : GoValue) :
    encodeValue seq name (.ptr (some w)) = encodeAfterDeref seq name w := by
  simp [encodeValue]

/-- Equation: encoding a non-pointer value runs the switch body directly. -/
theorem encodeValue_nonptr (seq : OrderingTable) (name : String) (v : GoValue)
    (h : ∀ i, v ≠ .ptr i) :
    encodeValue seq name v = encodeAfterDeref seq name v := by
  cases v with
  | ptr i => exact absurd rfl (h i)
  | str s => simp [encodeValue]
  | int n => simp [encodeValue]
  | bool b => simp [encodeValue]
  | slice z l => simp [encodeValue]
  | scalar s z => simp [encodeValue]
  | comp t fs => simp [encodeValue]

/-- Equation: the switch body on a string. -/
theorem encodeAfterDeref_str (seq : OrderingTable) (name s : String) :
    encodeAfterDeref seq name (.str s) =
      if s = "" then [] else [.elem name [.text s]] := by
  by_cases h : s = ""
  · simp [encodeAfterDeref, isZero, h]
  · simp [encodeAfterDeref, isZero, h]

/-- Equation: the switch body on an int. -/
theorem encodeAfterDeref_int (seq : OrderingTable) (name : String) (n : Int) :
    encodeAfterDeref seq name (.int n) =
      if n = 0 then [] else [.elem name [.text (goIntString n)]] := by
  by_cases h : n = 0
  · simp [encodeAfterDeref, isZero, h]
  · simp [encodeAfterDeref, isZero, h]

/-- Equation: the switch body on a bool always emits the literal. -/
theorem encodeAfterDeref_bool (seq : OrderingTable) (name : String) (b : Bool) :
    encodeAfterDeref seq name (.bool b) =
      [.elem name [.text (if b then "true" else "false")]] := by
  simp [encodeAfterDeref, isZero]

/-- Equation: the switch body on a scalar struct. -/
theorem encodeAfterDeref_scalar (seq : OrderingTable) (name sv : String) (z : Bool) :
    encodeAfterDeref seq name (.scalar sv z) =
      if z then [] else [.elem name [.text sv]] := by
  by_cases h : z
  · simp [encodeAfterDeref, isZero, h]
  · simp [encodeAfterDeref, isZero, h]

/-- Equation: the switch body on a slice, de-attached. -/
theorem encodeAfterDeref_slice (seq : OrderingTable) (name : String)
    (z : Bool) (elems : List GoValue) :
    encodeAfterDeref seq name (.slice z elems) =
      if z || elems.isEmpty then [] else elems.flatMap (encodeValue seq name) := by
  by_cases h : z || elems.isEmpty
  · simp [encodeAfterDeref, isZero, h]
  · simp only [encodeAfterDeref, isZero, h, Bool.false_eq_true, if_false, if_neg]
    rw [attach_flatMap elems (encodeValue seq name)]

/-- Equation: the switch body on a composite struct, de-attached. -/
theorem encodeAfterDeref_comp (seq : OrderingTable) (name t : String)
    (fields : List (String × GoValue)) :
    encodeAfterDeref seq name (.comp t fields) =
      [.elem name (match seq t with
        | some order => order.flatMap fun en =>
            match fieldsLookup fields en with
            | some fv => encodeValue seq en fv
            | none => []
        | none => fields.flatMap fun f =>
            if f.1 = "" then [] else encodeValue seq f.1 f.2)] := by
  cases hseq : seq t with
  | some order =>
      simp only [encodeAfterDeref, isZero, Bool.false_eq_true, if_false, hseq]
      refine congrArg (fun cs => [XmlNode.elem name cs]) ?_
      refine congrArg order.flatMap ?_
      funext en
      cases hl : fieldsLookup fields en <;> simp [hl]
  | none =>
      simp only [encodeAfterDeref, isZero, Bool.false_eq_true, if_false, hseq]
      rw [show (fun (f : {x // x ∈ fields}) =>
        if f.1.1 = "" then [] else encodeValue seq f.1.1 f.1.2) =
        (fun (f : {x // x ∈ fields}) =>
          (fun (g : String × GoValue) =>
            if g.1 = "" then [] else encodeValue seq g.1 g.2) f.1) from rfl]
      rw [attach_flatMap fields
        (fun g => if g.1 = "" then ([] : List XmlNode) else encodeValue seq g.1 g.2)]

/-- Every node the encoder emits for a value is an element bearing exactly
the element name passed in. -/
theorem encode_nodes_named (seq : OrderingTable) :
    ∀ (k : Nat) (v : GoValue), sizeOf v ≤ k → ∀ (name : String) (nd : XmlNode),
      (nd ∈ encodeValue seq name v → ∃ cs, nd = XmlNode.elem name cs) ∧
      (nd ∈ encodeAfterDeref seq name v → ∃ cs, nd = XmlNode.elem name cs) := by
  intro k
  induction k using Nat.strong_induction_on with
  | _ k ih =>
    intro v hv name nd
    have hAD : nd ∈ encodeAfterDeref seq name v → ∃ cs, nd = XmlNode.elem name cs := by
      intro hnd
      cases v with
      | str s =>
          rw [encodeAfterDeref_str] at hnd
          split at hnd
          · exact absurd hnd (List.not_mem_nil nd)
          · exact ⟨_, List.mem_singleton.mp hnd⟩
      | int n =>
          rw [encodeAfterDeref_int] at hnd
          split at hnd
          · exact absurd hnd (List.not_mem_nil nd)
          · exact ⟨_, List.mem_singleton.mp hnd⟩
      | bool b =>
          rw [encodeAfterDeref_bool] at hnd
          exact ⟨_, List.mem_singleton.mp hnd⟩
      | scalar sv z =>
          rw [encodeAfterDeref_scalar] at hnd
          split at hnd
          · exact absurd hnd (List.not_mem_nil nd)
          · exact ⟨_, List.mem_singleton.mp hnd⟩
      | comp t fields =>
          rw [encodeAfterDeref_comp] at hnd
          exact ⟨_, List.mem_singleton.mp hnd⟩
      | ptr i =>
          cases i with
          | none => simp [encodeAfterDeref, isZero] at hnd
          | some w => simp [encodeAfterDeref, isZero] at hnd
      | slice z elems =>
          rw [encodeAfterDeref_slice] at hnd
          split at hnd
          · exact absurd hnd (List.not_mem_nil nd)
          · obtain ⟨e, hem, hein⟩ := List.mem_flatMap.mp hnd
            have hsz : sizeOf e < k := by
              have h1 := List.sizeOf_lt_of_mem hem
              have h2 : sizeOf (GoValue.slice z elems) = 1 + sizeOf z + sizeOf elems := by
                simp
              omega
            exact ((ih (sizeOf e) hsz e le_rfl name nd).1) hein
    refine ⟨?_, hAD⟩
    intro hnd
    cases v with
    | ptr i =>
        cases i with
        | none =>
            rw [encodeValue_ptr_none] at hnd
            exact absurd hnd (List.not_mem_nil nd)
        | some w =>
            rw [encodeValue_ptr_some] at hnd
            have hsz : sizeOf w < k := by
              have h2 : sizeOf (GoValue.ptr (some w)) = 1 + (1 + sizeOf w) := by simp
              omega
            exact ((ih (sizeOf w) hsz w le_rfl name nd).2) hnd
    | str s => exact hAD (by rwa [encodeValue_nonptr seq name _ (by intro i h; cases h)] at hnd)
    | int n => exact hAD (by rwa [encodeValue_nonptr seq name _ (by intro i h; cases h)] at hnd)
    | bool b => exact hAD (by rwa [encodeValue_nonptr seq name _ (by intro i h; cases h)] at hnd)
    | slice z l => exact hAD (by rwa [encodeValue_nonptr seq name _ (by intro i h; cases h)] at hnd)
    | scalar s z => exact hAD (by rwa [encodeValue_nonptr seq name _ (by intro i h; cases h)] at hnd)
    | comp t fs => exact hAD (by rwa [encodeValue_nonptr seq name _ (by intro i h; cases h)] at hnd)

/-- Non-emptiness of a slice emission for schema-shaped slices (every
element a composite struct): the emission is empty exactly when the slice
is nil or empty. -/
theorem encodeAfterDeref_slice_empty_iff (seq : OrderingTable) (name : String)
    (z : Bool) (elems : List GoValue)
    (hall : (elems.all fun e =>
      match e with | .comp _ _ => true | _ => false) = true) :
    (encodeAfterDeref seq name (.slice z elems) = [] ↔ (z || elems.isEmpty) = true) := by
  rw [encodeAfterDeref_slice]
  by_cases h : (z || elems.isEmpty) = true
  · simp [h]
  · rw [if_neg h]
    simp only [h, iff_false]
    cases elems with
    | nil => simp at h
    | cons e rest =>
        have he := List.all_eq_true.mp hall e (List.mem_cons_self e rest)
        cases e with
        | comp t fs =>
            rw [List.flatMap_cons,
              encodeValue_nonptr seq name _ (by intro i hi; cases hi),
              encodeAfterDeref_comp]
            simp
        | str s => simp at he
        | int n => simp at he
        | bool b => simp at he
        | slice z2 l2 => simp at he
        | ptr i => simp at he
        | scalar s2 z2 => simp at he

/-- C9: under the encoder, a reached field value is omitted exactly when it
is the semantic zero after the single pointer dereference (nil pointer, nil
or empty slice, empty string, zero int, scalar struct whose IsZero holds;
composite structs are never zero) — except booleans, which are never zero
and are always emitted as an element holding the literal true or false.
Stated for schema-shaped values: slices hold struct elements and pointers
do not point at pointers or slices. -/
theorem c9_omission_rule (seq : OrderingTable) (name : String) (v : GoValue)
    (h : schemaShaped v = true) :
    (encodeValue seq name v = [] ↔ goZero v = true) ∧
    (∀ b, v = .bool b →
      encodeValue seq name v = [.elem name [.text (if b then "true" else "false")]]) := by
  constructor
  · cases v with
    | str s =>
        rw [encodeValue_nonptr seq name _ (by intro i hi; cases hi), encodeAfterDeref_str]
        by_cases hs : s = "" <;> simp [hs, goZero, isZero]
    | int n =>
        rw [encodeValue_nonptr seq name _ (by intro i hi; cases hi), encodeAfterDeref_int]
        by_cases hn : n = 0 <;> simp [hn, goZero, isZero]
    | bool b =>
        rw [encodeValue_nonptr seq name _ (by intro i hi; cases hi), encodeAfterDeref_bool]
        simp [goZero, isZero]
    | scalar sv z =>
        rw [encodeValue_nonptr seq name _ (by intro i hi; cases hi), encodeAfterDeref_scalar]
        cases z <;> simp [goZero, isZero]
    | comp t fs =>
        rw [encodeValue_nonptr seq name _ (by intro i hi; cases hi), encodeAfterDeref_comp]
        simp [goZero, isZero]
    | slice z elems =>
        rw [encodeValue_nonptr seq name _ (by intro i hi; cases hi),
          encodeAfterDeref_slice_empty_iff seq name z elems (by simpa [schemaShaped] using h)]
        simp [goZero, isZero]
    | ptr i =>
        cases i with
        | none => simp [encodeValue_ptr_none, goZero]
        | some w =>
            rw [encodeValue_ptr_some]
            cases w with
            | str s =>
                rw [encodeAfterDeref_str]
                by_cases hs : s = "" <;> simp [hs, goZero, isZero]
            | int n =>
                rw [encodeAfterDeref_int]
                by_cases hn : n = 0 <;> simp [hn, goZero, isZero]
            | bool b =>
                rw [encodeAfterDeref_bool]
                simp [goZero, isZero]
            | scalar sv z =>
                rw [encodeAfterDeref_scalar]
                cases z <;> simp [goZero, isZero]
            | comp t fs =>
                rw [encodeAfterDeref_comp]
                simp [goZero, isZero]
            | slice z2 elems =>
                simp [schemaShaped] at h
            | ptr i2 =>
                simp [schemaShaped] at h
  · intro b hb
    subst hb
    rw [encodeValue_nonptr seq name _ (by intro i hi; cases hi), encodeAfterDeref_bool]

/-- Witness for C9: a false boolean field is not omitted and emits the
literal false, while its goZero is false. -/
theorem c9_omission_rule_witness :
    (encodeValue modelSequence "EgovFlag" (.bool false) = [] ↔
      goZero (.bool false) = true) ∧
    (∀ b, GoValue.bool false = .bool b →
      encodeValue modelSequence "EgovFlag" (.bool false) =
        [.elem "EgovFlag" [.text (if b then "true" else "false")]]) :=
  c9_omission_rule modelSequence "EgovFlag" (.bool false) (by decide)

/-- C10: for a composite type with an ordering-table entry, the encoder
walks only that entry: the emitted children all bear names from the entry,
so a field whose element name is absent from the entry is silently dropped
even when populated; the declaration-order loop runs only for a type with
no table entry at all. -/
theorem c10_tabulated_children_only (seq : OrderingTable) (name t : String)
    (fields : List (String × GoValue)) :
    (∀ order, seq t = some order →
      encodeValue seq name (.comp t fields) =
        [.elem name (order.flatMap fun en =>
          match fieldsLookup fields en with
          | some fv => encodeValue seq en fv
          | none => [])] ∧
      (∀ nd ∈ (order.flatMap fun en =>
          match fieldsLookup fields en with
          | some fv => encodeValue seq en fv
          | none => []),
        ∃ en ∈ order, ∃ cs, nd = XmlNode.elem en cs) ∧
      (∀ fn fv, (fn, fv) ∈ fields → fn ∉ order →
        ((order.flatMap fun en =>
          match fieldsLookup fields en with
          | some fv2 => encodeValue seq en fv2
          | none => []).filter (childNamed fn)) = [])) ∧
    (seq t = none →
      encodeValue seq name (.comp t fields) =
        [.elem name (fields.flatMap fun f =>
          if f.1 = "" then [] else encodeValue seq f.1 f.2)]) := by
  have hnames : ∀ (order : List String), ∀ nd ∈ (order.flatMap fun en =>
      match fieldsLookup fields en with
      | some fv => encodeValue seq en fv
      | none => []),
      ∃ en ∈ order, ∃ cs, nd = XmlNode.elem en cs := by
    intro order nd hnd
    obtain ⟨en, hen, hin⟩ := List.mem_flatMap.mp hnd
    refine ⟨en, hen, ?_⟩
    cases hl : fieldsLookup fields en with
    | none => rw [hl] at hin; exact absurd hin (List.not_mem_nil nd)
    | some fv =>
        rw [hl] at hin
        exact (encode_nodes_named seq (sizeOf fv) fv le_rfl en nd).1 hin
  constructor
  · intro order hseq
    refine ⟨?_, hnames order, ?_⟩
    · rw [encodeValue_nonptr seq name _ (by intro i hi; cases hi), encodeAfterDeref_comp,
        hseq]
    · intro fn fv _ hfn
      rw [List.filter_eq_nil]
      intro nd hnd
      obtain ⟨en, hen, cs, rfl⟩ := hnames order nd hnd
      simp only [childNamed, beq_iff_eq]
      intro hcontra
      exact hfn (hcontra ▸ hen)
  · intro hseq
    rw [encodeValue_nonptr seq name _ (by intro i hi; cases hi), encodeAfterDeref_comp,
      hseq]

/-- Witness for C10: with an entry listing only A, the populated field B is
dropped (no emitted child named B) although B is populated, and an
untabulated type U falls back to declaration order. -/
theorem c10_tabulated_children_only_witness :
    (encodeValue tinySequence "root" (.comp "T" tinyFields) =
      [.elem "root" ((["A"]).flatMap fun en =>
        match fieldsLookup tinyFields en with
        | some fv => encodeValue tinySequence en fv
        | none => [])] ∧
     (((["A"]).flatMap fun en =>
        match fieldsLookup tinyFields en with
        | some fv2 => encodeValue tinySequence en fv2
        | none => []).filter (childNamed "B")) = []) ∧
    encodeValue tinySequence "root" (.comp "U" tinyFields) =
      [.elem "root" (tinyFields.flatMap fun f =>
        if f.1 = "" then [] else encodeValue tinySequence f.1 f.2)] :=
  ⟨⟨((c10_tabulated_children_only tinySequence "root" "T" tinyFields).1 ["A"] rfl).1,
    ((c10_tabulated_children_only tinySequence "root" "T" tinyFields).1 ["A"] rfl).2.2
      "B" (.str "y") (List.mem_cons_of_mem _ (List.mem_cons_self _ _)) (by decide)⟩,
   (c10_tabulated_children_only tinySequence "root" "U" tinyFields).2 rfl⟩

/-- Decimal digit characters decode back to their digit. -/
theorem digitChar_toNat (d : Nat) (h : d < 10) :
    (Nat.digitChar d).toNat - 48 = d := by
  interval_cases d <;> decide

/-- Decimal digit characters are digits. -/
theorem digitChar_isDigit (d : Nat) (h : d < 10) :
    (Nat.digitChar d).isDigit = true := by
  interval_cases d <;> decide

/-- Folding the digit-accumulator over a rendered digit list recovers the
number, with the accumulator shifted by the width. -/
theorem natOfDigits_rendered :
    ∀ (L : List Nat) (a : Nat), (∀ d ∈ L, d < 10) →
      (L.reverse.map Nat.digitChar).foldl (fun acc c => 10 * acc + (c.toNat - 48)) a =
        a * 10 ^ L.length + Nat.ofDigits 10 L := by
  intro L
  induction L with
  | nil => intro a _; simp
  | cons d t ih =>
      intro a hlt
      rw [List.reverse_cons, List.map_append, List.foldl_append]
      rw [ih a (fun x hx => hlt x (List.mem_cons_of_mem d hx))]
      simp only [List.map_cons, List.map_nil, List.foldl_cons, List.foldl_nil]
      rw [digitChar_toNat d (hlt d (List.mem_cons_self d t))]
      rw [Nat.ofDigits_cons, List.length_cons, pow_succ]
      ring

/-- The decimal rendering of a natural number consists of digits only. -/
theorem goNatString_all_digits (m : Nat) :
    ∀ c ∈ (goNatString m).data, c.isDigit = true := by
  unfold goNatString
  by_cases h : m = 0
  · rw [if_pos h]
    intro c hc
    simp only [String.data] at hc
    simp at hc
    rw [hc]
    decide
  · rw [if_neg h]
    intro c hc
    simp only [String.data] at hc
    rw [List.mem_map] at hc
    obtain ⟨d, hd, rfl⟩ := hc
    rw [List.mem_reverse] at hd
    exact digitChar_isDigit d (Nat.digits_lt_base (by norm_num) hd)

/-- The decimal rendering of a natural number is never empty. -/
theorem goNatString_ne_nil (m : Nat) : (goNatString m).data ≠ [] := by
  unfold goNatString
  by_cases h : m = 0
  · rw [if_pos h]; decide
  · rw [if_neg h]
    simp only [String.data, ne_eq, List.map_eq_nil_iff, List.reverse_eq_nil_iff]
    exact Nat.digits_ne_nil_iff_ne_zero.mpr h

/-- Parsing the digits of the decimal rendering recovers the number. -/
theorem natOfDigits_goNatString (m : Nat) :
    natOfDigits (goNatString m).data = m := by
  unfold goNatString
  by_cases h : m = 0
  · rw [if_pos h, h]; decide
  · rw [if_neg h]
    show natOfDigits ((Nat.digits 10 m).reverse.map Nat.digitChar) = m
    unfold natOfDigits
    rw [natOfDigits_rendered (Nat.digits 10 m) 0
      (fun d hd => Nat.digits_lt_base (by norm_num) hd)]
    rw [Nat.ofDigits_digits]
    ring

/-- Length bound of the decimal rendering. -/
theorem goNatString_length_le (m w : Nat) (hm : m < 10 ^ w) (hw : 1 ≤ w) :
    (goNatString m).length ≤ w := by
  unfold goNatString
  by_cases h : m = 0
  · rw [if_pos h]
    simpa using hw
  · rw [if_neg h]
    show ((Nat.digits 10 m).reverse.map Nat.digitChar).length ≤ w
    rw [List.length_map, List.length_reverse]
    by_contra hlen
    push_neg at hlen
    have h1 := Nat.base_pow_length_digits_le 10 m (by norm_num) h
    have h2 : (10 : Nat) ^ (w + 1) ≤ 10 ^ (Nat.digits 10 m).length :=
      Nat.pow_le_pow_right (by norm_num) hlen
    have h3 : (10 : Nat) ^ (w + 1) = 10 * 10 ^ w := by ring
    have h4 : (10 : Nat) ^ w ≤ m := by
      have := le_trans h2 h1
      omega
    omega

/-- Parsing the rendered digits of a natural number succeeds and recovers it. -/
theorem parseNatDigits_goNatString (m : Nat) :
    parseNatDigits (goNatString m).data = some m := by
  unfold parseNatDigits
  rw [if_pos ⟨goNatString_ne_nil m, List.all_eq_true.mpr (goNatString_all_digits m)⟩]
  rw [natOfDigits_goNatString]

/-- A digit character is not a sign character. -/
theorem isDigit_not_sign (c : Char) (h : c.isDigit = true) : c ≠ '-' ∧ c ≠ '+' := by
  constructor
  · intro hc; rw [hc] at h; exact absurd h (by decide)
  · intro hc; rw [hc] at h; exact absurd h (by decide)

/-- Evaluation of the integer parse on a string with a known head. -/
theorem parseGoInt_cons (c : Char) (rest : List Char) (s : String)
    (hs : s.data = c :: rest) :
    parseGoInt s =
      if c = '-' then (parseNatDigits rest).map (fun n => -(n : Int))
      else if c = '+' then (parseNatDigits rest).map (fun n => (n : Int))
      else (parseNatDigits (c :: rest)).map (fun n => (n : Int)) := by
  unfold parseGoInt
  rw [hs]

/-- Parsing the fmt %d rendering of an integer recovers it. -/
theorem parseGoInt_goIntString (n : Int) : parseGoInt (goIntString n) = some n := by
  unfold goIntString
  by_cases h : n < 0
  · rw [if_pos h]
    have hdata : ("-" ++ goNatString n.natAbs).data =
        '-' :: (goNatString n.natAbs).data := by
      rw [String.data_append]
      rfl
    rw [parseGoInt_cons '-' (goNatString n.natAbs).data _ hdata]
    rw [if_pos rfl]
    rw [parseNatDigits_goNatString]
    exact congrArg some (show -((n.natAbs : Nat) : Int) = n by omega)
  · rw [if_neg h]
    cases hdata : (goNatString n.natAbs).data with
    | nil => exact absurd hdata (goNatString_ne_nil n.natAbs)
    | cons c rest =>
        have hcd : c.isDigit = true :=
          goNatString_all_digits n.natAbs c (by rw [hdata]; exact List.mem_cons_self c rest)
        obtain ⟨hc1, hc2⟩ := isDigit_not_sign c hcd
        rw [parseGoInt_cons c rest _ hdata]
        rw [if_neg hc1, if_neg hc2]
        rw [← hdata, parseNatDigits_goNatString]
        exact congrArg some (show ((n.natAbs : Nat) : Int) = n by omega)

/-- Leading zero characters do not change the parsed value. -/
theorem natOfDigits_replicate_zero :
    ∀ (k : Nat) (l : List Char),
      natOfDigits (List.replicate k '0' ++ l) = natOfDigits l := by
  intro k
  induction k with
  | zero => intro l; rfl
  | succ k2 ih =>
      intro l
      rw [List.replicate_succ, List.cons_append]
      show natOfDigits (List.replicate k2 '0' ++ l) = natOfDigits l
      exact ih l

/-- The zero-padded rendering has exactly the requested width, consists of
digits, and parses back to the number. -/
theorem goZeroPad_spec (w m : Nat) (hm : m < 10 ^ w) (hw : 1 ≤ w) :
    (goZeroPad w m).data.length = w ∧
    (∀ c ∈ (goZeroPad w m).data, c.isDigit = true) ∧
    natOfDigits (goZeroPad w m).data = m := by
  have hlen := goNatString_length_le m w hm hw
  unfold goZeroPad
  by_cases h : (goNatString m).length < w
  · rw [if_pos h]
    have hdata : ((⟨List.replicate (w - (goNatString m).length) '0'⟩ : String) ++
        goNatString m).data =
        List.replicate (w - (goNatString m).length) '0' ++ (goNatString m).data := by
      rw [String.data_append]
    rw [hdata]
    refine ⟨?_, ?_, ?_⟩
    · rw [List.length_append, List.length_replicate]
      have : (goNatString m).length = (goNatString m).data.length := rfl
      omega
    · intro c hc
      rcases List.mem_append.mp hc with h1 | h2
      · rw [List.eq_of_mem_replicate h1]
        decide
      · exact goNatString_all_digits m c h2
    · rw [natOfDigits_replicate_zero, natOfDigits_goNatString]
  · rw [if_neg h]
    have heq : (goNatString m).length = w := by omega
    refine ⟨heq, goNatString_all_digits m, natOfDigits_goNatString m⟩

/-- A list of length four is a four-element literal. -/
theorem list_eq_of_length_four {α : Type} (l : List α) (h : l.length = 4) :
    ∃ a b c d, l = [a, b, c, d] := by
  rcases l with _ | ⟨a, _ | ⟨b, _ | ⟨c, _ | ⟨d, _ | ⟨e, t⟩⟩⟩⟩⟩ <;>
    simp only [List.length_cons, List.length_nil] at h
  · omega
  · omega
  · omega
  · omega
  · exact ⟨a, b, c, d, rfl⟩
  · omega

/-- A list of length two is a two-element literal. -/
theorem list_eq_of_length_two {α : Type} (l : List α) (h : l.length = 2) :
    ∃ a b, l = [a, b] := by
  rcases l with _ | ⟨a, _ | ⟨b, _ | ⟨c, t⟩⟩⟩ <;>
    simp only [List.length_cons, List.length_nil] at h
  · omega
  · omega
  · exact ⟨a, b, rfl⟩
  · omega

/-- ParseDate evaluated on a string with known ten-character data. -/
theorem ParseDate_data (s : String) (y1 y2 y3 y4 m1 m2 d1 d2 : Char)
    (hs : s.data = [y1, y2, y3, y4, '-', m1, m2, '-', d1, d2]) :
    ParseDate s =
      (if y1.isDigit && y2.isDigit && y3.isDigit && y4.isDigit &&
          m1.isDigit && m2.isDigit && d1.isDigit && d2.isDigit then
        if 1 ≤ natOfDigits [m1, m2] ∧ natOfDigits [m1, m2] ≤ 12 then
          if 1 ≤ natOfDigits [d1, d2] ∧ natOfDigits [d1, d2] ≤
              daysInMonth (natOfDigits [y1, y2, y3, y4]) (natOfDigits [m1, m2]) then
            .ok ⟨natOfDigits [y1, y2, y3, y4], natOfDigits [m1, m2],
                 natOfDigits [d1, d2]⟩
          else .error ("invalid date format " ++ s ++ ": expected YYYY-MM-DD")
        else .error ("invalid date format " ++ s ++ ": expected YYYY-MM-DD")
      else .error ("invalid date format " ++ s ++ ": expected YYYY-MM-DD")) := by
  have hne : ¬ s = "" := by
    intro he
    rw [he] at hs
    rw [show ("".data) = ([] : List Char) from rfl] at hs
    exact absurd hs (by simp)
  unfold ParseDate
  rw [if_neg hne, hs]
  rfl

/-- Rendering a well-formed non-zero date and parsing it back recovers the
date. -/
theorem ParseDate_dateString (d : Date) (hwf : dateWF d = true)
    (hnz : dateIsZero d = false) : ParseDate (dateString d) = .ok d := by
  have hargs : 1 ≤ d.month ∧ d.month ≤ 12 ∧ 1 ≤ d.day ∧
      d.day ≤ daysInMonth d.year d.month ∧ d.year ≤ 9999 := by
    unfold dateWF at hwf
    rw [hnz] at hwf
    simp only [Bool.false_or, Bool.and_eq_true, decide_eq_true_eq] at hwf
    exact ⟨hwf.1.1.1.1, hwf.1.1.1.2, hwf.1.1.2, hwf.1.2, hwf.2⟩
  obtain ⟨hm1, hm2, hd1, hd2, hy⟩ := hargs
  have hd31 : d.day ≤ 31 := by
    have h31 : daysInMonth d.year d.month ≤ 31 := by
      unfold daysInMonth
      split
      · split <;> omega
      · split <;> omega
    omega
  obtain ⟨hYlen, hYdig, hYval⟩ := goZeroPad_spec 4 d.year (by omega) (by omega)
  obtain ⟨hMlen, hMdig, hMval⟩ := goZeroPad_spec 2 d.month (by omega) (by omega)
  obtain ⟨hDlen, hDdig, hDval⟩ := goZeroPad_spec 2 d.day (by omega) (by omega)
  obtain ⟨y1, y2, y3, y4, hYd⟩ := list_eq_of_length_four _ hYlen
  obtain ⟨mc1, mc2, hMd⟩ := list_eq_of_length_two _ hMlen
  obtain ⟨dc1, dc2, hDd⟩ := list_eq_of_length_two _ hDlen
  rw [hYd] at hYdig hYval
  rw [hMd] at hMdig hMval
  rw [hDd] at hDdig hDval
  have hds : dateString d =
      goZeroPad 4 d.year ++ "-" ++ goZeroPad 2 d.month ++ "-" ++ goZeroPad 2 d.day := by
    unfold dateString
    rw [if_neg (by rw [hnz]; exact Bool.false_ne_true)]
  have hdata : (dateString d).data =
      [y1, y2, y3, y4, '-', mc1, mc2, '-', dc1, dc2] := by
    rw [hds, String.data_append, String.data_append, String.data_append,
      String.data_append, hYd, hMd, hDd]
    rfl
  rw [ParseDate_data (dateString d) y1 y2 y3 y4 mc1 mc2 dc1 dc2 hdata]
  have hdig : (y1.isDigit && y2.isDigit && y3.isDigit && y4.isDigit &&
      mc1.isDigit && mc2.isDigit && dc1.isDigit && dc2.isDigit) = true := by
    simp [hYdig y1 (by simp), hYdig y2 (by simp), hYdig y3 (by simp),
      hYdig y4 (by simp), hMdig mc1 (by simp), hMdig mc2 (by simp),
      hDdig dc1 (by simp), hDdig dc2 (by simp)]
  rw [if_pos hdig, hYval, hMval, hDval, if_pos ⟨hm1, hm2⟩, if_pos ⟨hd1, hd2⟩]

/-- dropWhile is the identity when the predicate holds nowhere. -/
theorem dropWhile_all_false {α : Type} (p : α → Bool) (l : List α)
    (h : ∀ c ∈ l, p c = false) : l.dropWhile p = l := by
  cases l with
  | nil => rfl
  | cons a t =>
      rw [List.dropWhile_cons, h a (by simp)]
      simp

/-- Hexadecimal digits are not whitespace. -/
theorem hex_not_ws (c : Char) (h : isHexDigitChar c = true) :
    c.isWhitespace = false := by
  by_contra hw
  rw [Bool.not_eq_false] at hw
  have hw' : ((c = ' ' ∨ c = '\t') ∨ c = '\x0d') ∨ c = '\n' := by
    simpa [Char.isWhitespace] using hw
  rcases hw' with ((h1 | h1) | h1) | h1 <;> subst h1 <;>
    exact absurd h (by decide)

/-- Every character of a canonical-layout UUID is a hex digit or a dash. -/
theorem uuidPattern_mem (s : String) (hp : uuidPattern s = true) :
    ∀ c ∈ s.data, isHexDigitChar c = true ∨ c = '-' := by
  intro c hc
  have hp' := hp
  unfold uuidPattern at hp'
  rw [Bool.and_eq_true] at hp'
  have hall := hp'.2
  rw [List.all_eq_true] at hall
  obtain ⟨i, hi, hgi⟩ := List.mem_iff_getElem.mp hc
  have hlen : i < s.data.enum.length := by
    rw [List.enum_length]
    exact hi
  have hmem : (i, c) ∈ s.data.enum := by
    have hg := List.getElem_mem hlen
    rw [List.getElem_enum] at hg
    rw [hgi] at hg
    exact hg
  have hcase := hall (i, c) hmem
  dsimp only at hcase
  by_cases h8 : i = 8 ∨ i = 13 ∨ i = 18 ∨ i = 23
  · rw [if_pos h8] at hcase
    right
    simpa using hcase
  · rw [if_neg h8] at hcase
    left
    exact hcase

/-- TrimSpace is the identity on strings containing no whitespace. -/
theorem goTrimSpace_of_no_ws (s : String)
    (h : ∀ c ∈ s.data, c.isWhitespace = false) : goTrimSpace s = s := by
  unfold goTrimSpace
  rw [dropWhile_all_false _ _ h]
  rw [dropWhile_all_false _ _
    (fun c hc => h c (List.mem_reverse.mp hc))]
  rw [List.reverse_reverse]

/-- NewUUID accepts a canonical-layout UUID verbatim. -/
theorem NewUUID_roundtrip (u : String) (hp : uuidPattern u = true) :
    NewUUID u = .ok u := by
  have hws : ∀ c ∈ u.data, c.isWhitespace = false := by
    intro c hc
    rcases uuidPattern_mem u hp c hc with h | h
    · exact hex_not_ws c h
    · rw [h]
      decide
  have ht : goTrimSpace u = u := goTrimSpace_of_no_ws u hws
  have hne : ¬ u = "" := by
    intro he
    rw [he] at hp
    exact absurd hp (by decide)
  show (if goTrimSpace u = "" then (Except.ok "" : Except String UUID)
        else if uuidPattern (goTrimSpace u) then .ok (goTrimSpace u)
        else .error ("invalid UUID format: " ++ goTrimSpace u)) = .ok u
  rw [ht, if_neg hne, if_pos hp]

/-- Filtering a name-ordered flatMap by child name keeps exactly the
emissions of the matching order entries. -/
theorem filter_flatMap_named (n : String) (order : List String)
    (f : String → List XmlNode)
    (hshape : ∀ en ∈ order, ∀ nd ∈ f en, ∃ cs, nd = XmlNode.elem en cs) :
    (order.flatMap f).filter (childNamed n) =
      (order.filter (fun en => en == n)).flatMap f := by
  induction order with
  | nil => rfl
  | cons en rest ih =>
      rw [List.flatMap_cons, List.filter_append, List.filter_cons]
      have hrest := ih (fun e he nd hnd => hshape e (List.mem_cons_of_mem en he) nd hnd)
      by_cases h : (en == n) = true
      · rw [if_pos h]
        rw [List.flatMap_cons]
        have hself : (f en).filter (childNamed n) = f en := by
          apply List.filter_eq_self.mpr
          intro nd hnd
          obtain ⟨cs, hcs⟩ := hshape en (List.mem_cons_self en rest) nd hnd
          rw [hcs]
          exact h
        rw [hself, hrest]
      · rw [if_neg h]
        have hnone : (f en).filter (childNamed n) = [] := by
          apply List.filter_eq_nil.mpr
          intro nd hnd
          obtain ⟨cs, hcs⟩ := hshape en (List.mem_cons_self en rest) nd hnd
          rw [hcs]
          simp only [childNamed]
          simpa using h
        rw [hnone, hrest, List.nil_append]

/-- The children of the encoded root named n come exactly from the order
entries equal to n, each emitting its looked-up field. -/
theorem elemsNamed_encode (inv : Invoice) (n : String) :
    elemsNamed n (EncodeBytes modelSequence inv) =
      (invoiceSequence.filter (fun en => en == n)).flatMap
        (fun en => match fieldsLookup (invoiceFields inv) en with
          | some fv => encodeValue modelSequence en fv
          | none => []) := by
  show (((modelSequence "Invoice").getD []).flatMap
      (fun en => match fieldsLookup (invoiceFields inv) en with
        | some fv => encodeValue modelSequence en fv
        | none => [])).filter (childNamed n) = _
  rw [show (modelSequence "Invoice").getD [] = invoiceSequence from rfl]
  apply filter_flatMap_named
  intro en _ nd hnd
  cases hl : fieldsLookup (invoiceFields inv) en with
  | none =>
      rw [hl] at hnd
      exact absurd hnd (List.not_mem_nil nd)
  | some fv =>
      rw [hl] at hnd
      exact ((encode_nodes_named modelSequence (sizeOf fv) fv le_rfl en nd).1) hnd

/-- Character data of a single-text element. -/
theorem textOf_single (name s : String) :
    textOf (XmlNode.elem name [.text s]) = s := by
  show ("" : String) ++ s = s
  simp

/-- When every element of a list emits exactly one element node named n, the
filtered flattened emission has one node per list element. -/
theorem filter_length_of_singletons (n : String) (l : List GoValue)
    (f : GoValue → List XmlNode)
    (h : ∀ x ∈ l, ∃ cs, f x = [XmlNode.elem n cs]) :
    ((l.flatMap f).filter (childNamed n)).length = l.length := by
  induction l with
  | nil => rfl
  | cons x rest ih =>
      obtain ⟨cs, hcs⟩ := h x (List.mem_cons_self x rest)
      rw [List.flatMap_cons, List.filter_append, hcs]
      have h1 : ([XmlNode.elem n cs]).filter (childNamed n) = [XmlNode.elem n cs] := by
        simp [childNamed]
      rw [h1, List.length_append,
        ih (fun y hy => h y (List.mem_cons_of_mem x hy))]
      simp only [List.length_cons, List.length_nil]
      omega

/-- Encoding any composite value yields exactly one element node. -/
theorem encodeValue_comp_singleton (seq : OrderingTable) (name t : String)
    (fields : List (String × GoValue)) :
    ∃ cs, encodeValue seq name (.comp t fields) = [XmlNode.elem name cs] := by
  rw [encodeValue_nonptr seq name _ (by intro i h; cases h), encodeAfterDeref_comp]
  exact ⟨_, rfl⟩

/-- C3: for every document of decodable shape (issue date and UUID as the
decoder can produce them), re-decoding the encoded tree preserves every
populated required field: the identifier, the UUID, the document-type code
and the issue date, and the invoice-line count is preserved always. -/
theorem c3_round_trip_required_fields (inv : Invoice)
    (hdate : dateWF inv.IssueDate = true)
    (huuid : uuidWF inv.UUID = true) :
    (inv.ID ≠ "" →
      redecodeStringField "ID" (EncodeBytes modelSequence inv) = inv.ID) ∧
    (inv.UUID ≠ "" →
      redecodeUUIDField "UUID" (EncodeBytes modelSequence inv) = .ok inv.UUID) ∧
    (inv.DocumentType ≠ 0 →
      redecodeIntField "DocumentType" (EncodeBytes modelSequence inv) =
        some inv.DocumentType) ∧
    (dateIsZero inv.IssueDate = false →
      redecodeDateField "IssueDate" (EncodeBytes modelSequence inv) =
        .ok inv.IssueDate) ∧
    redecodeLineCount (EncodeBytes modelSequence inv) =
      inv.InvoiceLines.InvoiceLine.length := by
  refine ⟨?_, ?_, ?_, ?_, ?_⟩
  · intro hne
    have hin : fieldsLookup (invoiceFields inv) "ID" = some (.str inv.ID) := rfl
    unfold redecodeStringField
    rw [elemsNamed_encode]
    rw [show invoiceSequence.filter (fun en => en == "ID") = ["ID"] from rfl]
    simp only [List.flatMap_cons, List.flatMap_nil, List.append_nil, hin]
    rw [encodeValue_nonptr modelSequence "ID" _ (by intro i h; cases h),
      encodeAfterDeref_str, if_neg hne]
    rw [show ([XmlNode.elem "ID" [XmlNode.text inv.ID]] : List XmlNode).getLast? =
      some (XmlNode.elem "ID" [XmlNode.text inv.ID]) from rfl]
    exact textOf_single "ID" inv.ID
  · intro hne
    have hp : uuidPattern inv.UUID = true := by
      unfold uuidWF at huuid
      rw [Bool.or_eq_true] at huuid
      rcases huuid with h | h
      · exact absurd (by simpa using h) hne
      · exact h
    have hin : fieldsLookup (invoiceFields inv) "UUID" = some (.str inv.UUID) := rfl
    unfold redecodeUUIDField
    rw [elemsNamed_encode]
    rw [show invoiceSequence.filter (fun en => en == "UUID") = ["UUID"] from rfl]
    simp only [List.flatMap_cons, List.flatMap_nil, List.append_nil, hin]
    rw [encodeValue_nonptr modelSequence "UUID" _ (by intro i h; cases h),
      encodeAfterDeref_str, if_neg hne]
    rw [show ([XmlNode.elem "UUID" [XmlNode.text inv.UUID]] : List XmlNode).getLast? =
      some (XmlNode.elem "UUID" [XmlNode.text inv.UUID]) from rfl]
    show NewUUID (textOf (XmlNode.elem "UUID" [XmlNode.text inv.UUID])) = .ok inv.UUID
    rw [textOf_single]
    exact NewUUID_roundtrip inv.UUID hp
  · intro hne
    have hin : fieldsLookup (invoiceFields inv) "DocumentType" =
        some (.int inv.DocumentType) := rfl
    unfold redecodeIntField
    rw [elemsNamed_encode]
    rw [show invoiceSequence.filter (fun en => en == "DocumentType") =
      ["DocumentType"] from rfl]
    simp only [List.flatMap_cons, List.flatMap_nil, List.append_nil, hin]
    rw [encodeValue_nonptr modelSequence "DocumentType" _ (by intro i h; cases h),
      encodeAfterDeref_int, if_neg hne]
    rw [show ([XmlNode.elem "DocumentType"
        [XmlNode.text (goIntString inv.DocumentType)]] : List XmlNode).getLast? =
      some (XmlNode.elem "DocumentType"
        [XmlNode.text (goIntString inv.DocumentType)]) from rfl]
    show parseGoInt (textOf (XmlNode.elem "DocumentType"
      [XmlNode.text (goIntString inv.DocumentType)])) = some inv.DocumentType
    rw [textOf_single]
    exact parseGoInt_goIntString inv.DocumentType
  · intro hnz
    have hin : fieldsLookup (invoiceFields inv) "IssueDate" =
        some (Date.toGoValue inv.IssueDate) := rfl
    unfold redecodeDateField
    rw [elemsNamed_encode]
    rw [show invoiceSequence.filter (fun en => en == "IssueDate") =
      ["IssueDate"] from rfl]
    simp only [List.flatMap_cons, List.flatMap_nil, List.append_nil, hin]
    rw [show Date.toGoValue inv.IssueDate =
      GoValue.scalar (dateString inv.IssueDate) (dateIsZero inv.IssueDate) from rfl]
    rw [encodeValue_nonptr modelSequence "IssueDate" _ (by intro i h; cases h),
      encodeAfterDeref_scalar,
      if_neg (by rw [hnz]; exact Bool.false_ne_true)]
    rw [show ([XmlNode.elem "IssueDate"
        [XmlNode.text (dateString inv.IssueDate)]] : List XmlNode).getLast? =
      some (XmlNode.elem "IssueDate"
        [XmlNode.text (dateString inv.IssueDate)]) from rfl]
    show ParseDate (textOf (XmlNode.elem "IssueDate"
      [XmlNode.text (dateString inv.IssueDate)])) = .ok inv.IssueDate
    rw [textOf_single]
    exact ParseDate_dateString inv.IssueDate hdate hnz
  · have hin : fieldsLookup (invoiceFields inv) "InvoiceLines" =
        some (InvoiceLines.toGoValue inv.InvoiceLines) := rfl
    unfold redecodeLineCount
    rw [elemsNamed_encode]
    rw [show invoiceSequence.filter (fun en => en == "InvoiceLines") =
      ["InvoiceLines"] from rfl]
    simp only [List.flatMap_cons, List.flatMap_nil, List.append_nil, hin]
    rw [encodeValue_nonptr modelSequence "InvoiceLines" _
      (by intro i h; exact absurd h (by simp [InvoiceLines.toGoValue]))]
    simp only [InvoiceLines.toGoValue]
    rw [encodeAfterDeref_comp]
    simp only [show modelSequence "InvoiceLines" = some ["InvoiceLine"] from rfl]
    have hin2 : fieldsLookup
        [("InvoiceLine", GoValue.slice false
          (inv.InvoiceLines.InvoiceLine.map InvoiceLine.toGoValue))] "InvoiceLine" =
        some (GoValue.slice false
          (inv.InvoiceLines.InvoiceLine.map InvoiceLine.toGoValue)) := rfl
    simp only [List.flatMap_cons, List.flatMap_nil, List.append_nil, hin2]
    rw [encodeValue_nonptr modelSequence "InvoiceLine" _ (by intro i h; cases h),
      encodeAfterDeref_slice]
    simp only [List.flatMap_cons, List.flatMap_nil, List.append_nil, childrenOf]
    cases hlines : inv.InvoiceLines.InvoiceLine with
    | nil => simp
    | cons l rest =>
        rw [if_neg (by simp)]
        have hsing : ∀ x ∈ (l :: rest).map InvoiceLine.toGoValue,
            ∃ cs, encodeValue modelSequence "InvoiceLine" x =
              [XmlNode.elem "InvoiceLine" cs] := by
          intro x hx
          obtain ⟨ln, _, hx2⟩ := List.mem_map.mp hx
          subst hx2
          exact encodeValue_comp_singleton modelSequence "InvoiceLine" "InvoiceLine" _
        rw [filter_length_of_singletons "InvoiceLine"
          ((l :: rest).map InvoiceLine.toGoValue)
          (encodeValue modelSequence "InvoiceLine") hsing, List.length_map]

/-- Witness: the round-trip theorem applied to the concrete sample invoice,
whose issue date and UUID are well formed. -/
theorem c3_round_trip_required_fields_witness :
    (dateWF sampleInvoice.IssueDate = true ∧ uuidWF sampleInvoice.UUID = true) ∧
    ((sampleInvoice.ID ≠ "" →
      redecodeStringField "ID" (EncodeBytes modelSequence sampleInvoice) =
        sampleInvoice.ID) ∧
    (sampleInvoice.UUID ≠ "" →
      redecodeUUIDField "UUID" (EncodeBytes modelSequence sampleInvoice) =
        .ok sampleInvoice.UUID) ∧
    (sampleInvoice.DocumentType ≠ 0 →
      redecodeIntField "DocumentType" (EncodeBytes modelSequence sampleInvoice) =
        some sampleInvoice.DocumentType) ∧
    (dateIsZero sampleInvoice.IssueDate = false →
      redecodeDateField "IssueDate" (EncodeBytes modelSequence sampleInvoice) =
        .ok sampleInvoice.IssueDate) ∧
    redecodeLineCount (EncodeBytes modelSequence sampleInvoice) =
      sampleInvoice.InvoiceLines.InvoiceLine.length) :=
  ⟨⟨by decide, by decide⟩,
   c3_round_trip_required_fields sampleInvoice (by decide) (by decide)⟩
